import Mathlib

/-!
# The storage / buffer layer of sml (storage.hpp, buffer.hpp, result.hpp)

Shallow embedding of `StorageBase<T>` and `BufferBase<T>`.

Memory model.  The block owned by `m_head` is a list of slot values (`slots`); it is
empty when `m_head` owns no block (null, or released by `deallocate`).  `m_tail` and
`m_end` are kept as offsets from `m_head`.  Every access to a slot outside the block is
undefined behaviour in the source and is the value `none` here, so every function that
touches memory is `Option`-valued.

Idealisations, stated once.  `allocate` always succeeds (the `bad_alloc` branch of
`reserve` is not modelled); consistently capacity and size, which are bounded by the
memory allocated, are unbounded naturals, and so is the read cursor, which moves one
step per call.  Caller supplied `size_type` arguments that enter arithmetic
(`extract`, `substr`) wrap at `2 ^ 64`.  Element destructors leave no trace.  A source array
`(pv, n)` is the list `pv` of the elements stored from `pv` on, read up to `n`; it is a
block other than the one being written, and a buffer passed by reference is an object
other than `*this`.
-/

namespace Sml

/-- The type `return_code` is `std::int64_t` in sml.hpp. -/
abbrev return_code := Int

/-- One more than the largest `size_type` (`std::size_t`, 64 bit). -/
def SIZE_MOD : Nat := 2 ^ 64

def UNDER_FLOW : return_code := -10101
def OUT_OF_RANGE : return_code := -10100
def NO_RESOURCE : return_code := -10001
def OK : return_code := 0

/-- Constant `ZERO` of storage.hpp. -/
def ZERO : Nat := 0

/-- Function `default_volume()`, which is `request_volume(rooms::V64)`. -/
def default_volume : Nat := 64

/-- Exceptions thrown by the buffer accessors. -/
inductive Thrown where
  | out_of_range
deriving DecidableEq, Repr

/-- Struct `error_type` of result.hpp. -/
structure error_type where
  m_error : return_code
deriving DecidableEq, Repr

/-- Class `Result<T>`: the flag `m_has_value` together with the active member of the union. -/
inductive Result (τ : Type) where
  | value (m_value : τ)
  | error (m_error : error_type)
deriving DecidableEq, Repr

namespace Result

def has_value {τ : Type} : Result τ → Bool
  | value _ => true
  | error _ => false

end Result

/-- Class `StorageBase<T>`: the block at `m_head`, the offsets of `m_tail` and `m_end`
from `m_head`, and the members `m_capacity` and `m_init`. -/
structure StorageBase (α : Type) where
  slots : List α
  m_tail : Nat
  m_end : Nat
  m_capacity : Nat
  m_init : Bool
deriving DecidableEq, Repr

/-- The call `std::copy(src, src + n, dst + off)`; copying nothing touches no slot. -/
def std_copy {α : Type} (src : List α) (n : Nat) (dst : List α) (off : Nat) : Option (List α) :=
  if n = 0 then some dst
  else if n ≤ src.length ∧ off + n ≤ dst.length then
    some (dst.take off ++ src.take n ++ dst.drop (off + n))
  else none

/-- The assignment `*(dst + off) = v`. -/
def store {α : Type} (dst : List α) (off : Nat) (v : α) : Option (List α) :=
  if off < dst.length then some (dst.set off v) else none

namespace StorageBase

variable {α : Type}

/-- The default member initialisers: null pointers, capacity 0, not initialised. -/
def fresh : StorageBase α := ⟨[], 0, 0, 0, false⟩

def is_inited (s : StorageBase α) : Bool := s.m_init

def capacity (s : StorageBase α) : Nat := s.m_capacity

/-- Function `size()`, which is `m_tail - m_head`. -/
def size (s : StorageBase α) : Nat := s.m_tail

/-- Function `full()`, which is `m_tail == m_end`. -/
def full (s : StorageBase α) : Bool := s.m_tail == s.m_end

/-- Function `overflow(l)`, which is `(m_tail + l) > m_end`. -/
def overflow (s : StorageBase α) (l : Nat) : Bool := decide (s.m_tail + l > s.m_end)

/-- Function `update_tail(l)`, which is `m_tail += l`. -/
def update_tail (s : StorageBase α) (l : Nat) : StorageBase α :=
  { s with m_tail := s.m_tail + l }

/-- Function `copy(const StorageBase& rhs)`. -/
def copy (s rhs : StorageBase α) : Option (StorageBase α) := do
  let slots ← std_copy rhs.slots rhs.size s.slots 0
  pure (update_tail { s with slots := slots } rhs.size)

/-- Function `copy(const_iterator b, const_iterator e)` with `b = pv` and `e = pv + n`. -/
def copy_range (s : StorageBase α) (pv : List α) (n : Nat) : Option (StorageBase α) := do
  let slots ← std_copy pv n s.slots 0
  pure (update_tail { s with slots := slots } n)

/-- Function `initialize(s)` (the name is reserved in Lean). -/
def initialise (st : StorageBase α) (s : Nat) : StorageBase α :=
  { st with m_tail := 0, m_end := s, m_capacity := s, m_init := true }

/-- Function `reserve(s)`: allocate `s` slots, set the pointers, default construct each slot. -/
def reserve [Inhabited α] (st : StorageBase α) (s : Nat) : StorageBase α × return_code :=
  if s = ZERO then (st, OK)
  else (initialise { st with slots := List.replicate s default } s, OK)

/-- Function `destroy_all()`: every slot is destroyed, then `m_tail = m_head`. -/
def destroy_all (s : StorageBase α) : StorageBase α := { s with m_tail := 0 }

/-- Function `deallocate()`: the block is released, `m_head` dangles. -/
def deallocate (s : StorageBase α) : StorageBase α := { s with slots := [] }

/-- Constructor 2, `StorageBase(size_type s)`. -/
def construct [Inhabited α] (s : Nat) : StorageBase α := (reserve fresh s).1

/-- The pointer loop `*m_tail++ = x` of the initializer list constructor. -/
def fill_from : StorageBase α → List α → Option (StorageBase α)
  | st, [] => some st
  | st, x :: l => do
    let slots ← store st.slots st.m_tail x
    fill_from { st with slots := slots, m_tail := st.m_tail + 1 } l

/-- Constructor `StorageBase(init_list_type l)`. -/
def construct_list [Inhabited α] (l : List α) : Option (StorageBase α) :=
  fill_from (reserve fresh l.length).1 l

/-- Copy constructor `StorageBase(const StorageBase& rhs)`. -/
def copy_construct [Inhabited α] (rhs : StorageBase α) : Option (StorageBase α) :=
  copy (reserve fresh rhs.capacity).1 rhs

/-- Move constructor: the new object, and `rhs` as it is left behind. -/
def move_construct (rhs : StorageBase α) : StorageBase α × StorageBase α :=
  (⟨rhs.slots, rhs.m_tail, rhs.m_end, rhs.m_capacity, rhs.m_init⟩,
   { rhs with slots := [], m_tail := 0, m_end := 0, m_init := false })

/-- Function `resize(size_type s)`. -/
def resize [Inhabited α] (st : StorageBase α) (s : Nat) : Option (StorageBase α) :=
  if st.is_inited then do
    let t ← copy_construct st
    let st1 := deallocate (destroy_all st)
    let st2 := (reserve st1 (st1.m_capacity + s)).1
    copy st2 t
  else some (reserve st s).1

/-- Function `resize()` without argument, which is `resize(m_capacity * 2)`. -/
def resize_noarg [Inhabited α] (st : StorageBase α) : Option (StorageBase α) :=
  resize st (st.m_capacity * 2)

/-- The live range `[m_head, m_tail)`. -/
def live (s : StorageBase α) : List α := s.slots.take s.m_tail

/-- The data model of the storage: `m_end - m_head` slots are allocated, `capacity()` is
that number, `m_tail` lies within the block, and a storage with slots is initialised. -/
def Valid (s : StorageBase α) : Prop :=
  s.m_end = s.slots.length ∧ s.m_capacity = s.m_end ∧ s.m_tail ≤ s.m_end ∧
    (s.m_capacity = 0 ∨ s.m_init = true)

instance (s : StorageBase α) : Decidable (Valid s) := by
  unfold Valid; infer_instance

end StorageBase

/-- Class `BufferBase<T>`: a `StorageBase<T>` with the read index `m_read`. -/
structure BufferBase (α : Type) extends StorageBase α where
  m_read : Nat
deriving DecidableEq, Repr

namespace BufferBase

variable {α : Type}

/-- Inherited constructor `BufferBase(size_type s)`; `m_read` starts at `ZERO`. -/
def construct [Inhabited α] (s : Nat) : BufferBase α := ⟨StorageBase.construct s, ZERO⟩

/-- Inherited default constructor, which reserves `default_volume()` slots. -/
def construct_default [Inhabited α] : BufferBase α := construct default_volume

/-- Inherited initializer list constructor. -/
def construct_list [Inhabited α] (l : List α) : Option (BufferBase α) := do
  let s ← StorageBase.construct_list l
  pure ⟨s, ZERO⟩

/-- Implicit copy constructor: the base is copy constructed, `m_read` is copied. -/
def copy_construct [Inhabited α] (rhs : BufferBase α) : Option (BufferBase α) := do
  let s ← StorageBase.copy_construct rhs.toStorageBase
  pure ⟨s, rhs.m_read⟩

/-- Implicit move constructor: the new object, and `rhs` as it is left behind. -/
def move_construct (rhs : BufferBase α) : BufferBase α × BufferBase α :=
  (⟨(StorageBase.move_construct rhs.toStorageBase).1, rhs.m_read⟩,
   ⟨(StorageBase.move_construct rhs.toStorageBase).2, rhs.m_read⟩)

/-- Function `clear()`. -/
def clear (b : BufferBase α) : BufferBase α :=
  { b with m_tail := 0, m_read := ZERO }

/-- Function `append(const_pointer pv, size_type n)`. -/
def append [Inhabited α] (b : BufferBase α) (pv : List α) (n : Nat) :
    Option (BufferBase α × return_code) := do
  let s ← (if b.overflow n then b.toStorageBase.resize n else some b.toStorageBase)
  let slots ← std_copy pv n s.slots s.m_tail
  pure (⟨StorageBase.update_tail { s with slots := slots } n, b.m_read⟩, OK)

/-- Function `append(const BufferBase& cr)`, for `cr` an object other than `*this`. -/
def append_cr [Inhabited α] (b cr : BufferBase α) : Option (BufferBase α × return_code) := do
  let n := cr.size
  let s ← (if b.overflow n then b.toStorageBase.resize n else some b.toStorageBase)
  let slots ← std_copy cr.slots cr.m_tail s.slots s.m_tail
  pure (⟨StorageBase.update_tail { s with slots := slots } n, b.m_read⟩, OK)

/-- Function `assign(const_pointer pv, size_type n)`. -/
def assign [Inhabited α] (b : BufferBase α) (pv : List α) (n : Nat) :
    Option (BufferBase α × return_code) := do
  let s ← (if b.capacity < n then b.toStorageBase.resize n else some b.toStorageBase)
  let b1 := clear ⟨s, b.m_read⟩
  let s2 ← StorageBase.copy_range b1.toStorageBase pv n
  pure (⟨s2, b1.m_read⟩, OK)

/-- Function `assign(const BufferBase& cr)`, for `cr` an object other than `*this`. -/
def assign_cr [Inhabited α] (b cr : BufferBase α) : Option (BufferBase α × return_code) := do
  let n := cr.size
  let s ← (if b.capacity < n then b.toStorageBase.resize n else some b.toStorageBase)
  let b1 := clear ⟨s, b.m_read⟩
  let s2 ← StorageBase.copy_range b1.toStorageBase cr.slots cr.m_tail
  pure (⟨s2, b1.m_read⟩, OK)

/-- Function `push_back(const_reference v)`. -/
def push_back [Inhabited α] (b : BufferBase α) (v : α) : Option (BufferBase α × return_code) := do
  let s ← (if b.full then b.toStorageBase.resize_noarg else some b.toStorageBase)
  let slots ← store s.slots s.m_tail v
  pure (⟨{ s with slots := slots, m_tail := s.m_tail + 1 }, b.m_read⟩, OK)

/-- Function `push_back(rvalue_reference v)`. -/
def push_back_rv [Inhabited α] (b : BufferBase α) (v : α) :
    Option (BufferBase α × return_code) := do
  let s ← (if b.full then b.toStorageBase.resize_noarg else some b.toStorageBase)
  let slots ← store s.slots s.m_tail v
  pure (⟨{ s with slots := slots, m_tail := s.m_tail + 1 }, b.m_read⟩, OK)

/-- Function `push_back(const_pointer v)`; `v` is the element pointed at. -/
def push_back_ptr [Inhabited α] (b : BufferBase α) (v : α) :
    Option (BufferBase α × return_code) := do
  let s ← (if b.full then b.toStorageBase.resize_noarg else some b.toStorageBase)
  let slots ← store s.slots s.m_tail v
  pure (⟨{ s with slots := slots, m_tail := s.m_tail + 1 }, b.m_read⟩, OK)

/-- Operator `operator+(const_reference v)`, which returns `*this`. -/
def operator_plus [Inhabited α] (b : BufferBase α) (v : α) : Option (BufferBase α) := do
  let s ← (if b.full then b.toStorageBase.resize_noarg else some b.toStorageBase)
  let slots ← store s.slots s.m_tail v
  pure ⟨{ s with slots := slots, m_tail := s.m_tail + 1 }, b.m_read⟩

/-- Function `read()`: the state after the call, and the value returned or the exception
thrown. -/
def read (b : BufferBase α) : Option (BufferBase α × Except Thrown α) :=
  let pos := b.m_read
  let b1 : BufferBase α := { b with m_read := b.m_read + 1 }
  if b1.m_read > b1.size then some (b1, Except.error Thrown.out_of_range)
  else (b1.slots[pos]?).map (fun v => (b1, Except.ok v))

/-- Function `put_back()`. -/
def put_back (b : BufferBase α) : BufferBase α × return_code :=
  if b.m_read > 0 then ({ b with m_read := b.m_read - 1 }, OK)
  else ({ b with m_read := 0 }, UNDER_FLOW)

/-- Getter `position()`. -/
def position (b : BufferBase α) : Nat := b.m_read

/-- Setter `position(size_type newPos)`. -/
def position_set (b : BufferBase α) (newPos : Nat) : BufferBase α × return_code :=
  if newPos > b.size then (b, OUT_OF_RANGE)
  else ({ b with m_read := newPos }, OK)

/-- Function `extract(first, length)`.  The statement `return dest` initialises the
by-value argument of the converting constructor `Result(Args... args)` from `dest` (by
move; a copy gives the same stored value), and `construct_value` copy constructs the
stored value from that argument. -/
def extract [Inhabited α] (b : BufferBase α) (first length : Nat) :
    Option (Result (BufferBase α)) :=
  if b.size < (first + length) % SIZE_MOD then
    some (Result.error ⟨OUT_OF_RANGE⟩)
  else do
    let dest : BufferBase α := construct b.m_capacity
    let r ← dest.assign (b.slots.drop first) length
    let args := (move_construct r.1).1
    let m_value ← copy_construct args
    pure (Result.value m_value)

/-- The cursor and size invariant: `0 <= read_position <= size <= capacity`. -/
def Inv (b : BufferBase α) : Prop := 0 ≤ b.m_read ∧ b.m_read ≤ b.size ∧ b.size ≤ b.capacity

instance (b : BufferBase α) : Decidable (Inv b) := by
  unfold Inv; infer_instance

/-- A call of one of the public operations of the buffer. -/
inductive Op (α : Type) where
  | clear
  | append (pv : List α) (n : Nat)
  | append_cr (cr : BufferBase α)
  | assign (pv : List α) (n : Nat)
  | assign_cr (cr : BufferBase α)
  | push_back (v : α)
  | push_back_rv (v : α)
  | push_back_ptr (v : α)
  | operator_plus (v : α)
  | read
  | put_back
  | position (newPos : Nat)

/-- The buffer after one call; for `read()` also when the call throws and the caller
catches the exception. -/
def step [Inhabited α] (b : BufferBase α) : Op α → Option (BufferBase α)
  | Op.clear => some b.clear
  | Op.append pv n => (b.append pv n).map Prod.fst
  | Op.append_cr cr => (b.append_cr cr).map Prod.fst
  | Op.assign pv n => (b.assign pv n).map Prod.fst
  | Op.assign_cr cr => (b.assign_cr cr).map Prod.fst
  | Op.push_back v => (b.push_back v).map Prod.fst
  | Op.push_back_rv v => (b.push_back_rv v).map Prod.fst
  | Op.push_back_ptr v => (b.push_back_ptr v).map Prod.fst
  | Op.operator_plus v => b.operator_plus v
  | Op.read => b.read.map Prod.fst
  | Op.put_back => some b.put_back.1
  | Op.position newPos => some (b.position_set newPos).1

/-- The buffer after a sequence of calls. -/
def run [Inhabited α] (b : BufferBase α) : List (Op α) → Option (BufferBase α)
  | [] => some b
  | op :: ops => (step b op).bind fun b' => run b' ops

/-- The calls whose arguments are well formed and that do not throw: a source array holds
the `n` elements read from it, another buffer satisfies the storage data model, and
`read()` finds the cursor below the size. -/
def Admissible (b : BufferBase α) : Op α → Prop
  | Op.append pv n => n ≤ pv.length
  | Op.append_cr cr => cr.Valid
  | Op.assign pv n => n ≤ pv.length
  | Op.assign_cr cr => cr.Valid
  | Op.read => b.m_read < b.size
  | _ => True

/-- A sequence of calls, each admissible in the state it is made in. -/
def AdmissibleRun [Inhabited α] (b : BufferBase α) : List (Op α) → Prop
  | [] => True
  | op :: ops => Admissible b op ∧ ∀ b', step b op = some b' → AdmissibleRun b' ops

/-- The bytes of the string used by tests/buffer/unit_test.cpp, as character codes. -/
def hello_world : List Nat := "Hello world!!".toList.map Char.toNat

/-- The buffer of the test cases: `ByteBuffer(16)` after `assign("Hello world!!", 13)`. -/
def hello_buffer : BufferBase Nat :=
  ⟨⟨hello_world ++ [0, 0, 0], 13, 16, 16, true⟩, 0⟩

/-- A full buffer of capacity 2 holding 1, 2. -/
def full_buffer : BufferBase Nat := ⟨⟨[1, 2], 2, 2, 2, true⟩, 0⟩

/-- A buffer of capacity 4 holding 1, 2, with the read cursor at 1. -/
def half_buffer : BufferBase Nat := ⟨⟨[1, 2, 0, 0], 2, 4, 4, true⟩, 1⟩

end BufferBase

namespace StorageBase

variable {α : Type}

/-- Constructors 3 and 4, `StorageBase(size_type s, v)`: reserve, then the loop that
stores `v` and advances `m_tail`, `s` times. -/
def construct_fill [Inhabited α] (s : Nat) (v : α) : Option (StorageBase α) :=
  fill_from (reserve fresh s).1 (List.replicate s v)

/-- Copy assignment `operator=(const StorageBase& rhs)`, for `rhs` an object other than
`*this`. -/
def copy_assign (st rhs : StorageBase α) : Option (StorageBase α) :=
  if st.m_capacity ≥ rhs.m_capacity then copy st rhs else some st

/-- Move assignment `operator=(StorageBase&& rhs)`, for `rhs` an object other than
`*this`: the destination, and `rhs` as it is left behind. -/
def move_assign (st rhs : StorageBase α) : StorageBase α × StorageBase α :=
  if st.m_capacity ≥ rhs.m_capacity then
    let st1 := deallocate (destroy_all st)
    ({ st1 with slots := rhs.slots, m_tail := rhs.m_tail, m_end := rhs.m_end, m_init := true },
     { rhs with m_init := false, slots := [], m_tail := 0, m_end := 0 })
  else (st, rhs)

/-- Function `copy_from(const value_type* p, size_type l)`: the loop `m_head[i] = *ptr`
for `i` below `l`, then `update_tail(l)`. -/
def copy_from (st : StorageBase α) (p : List α) (l : Nat) : Option (StorageBase α) := do
  let slots ← std_copy p l st.slots 0
  pure (update_tail { st with slots := slots } l)

/-- The pointer invariant `m_head <= m_tail <= m_end`, with `m_end` inside the block. -/
def PtrInv (s : StorageBase α) : Prop := s.m_tail ≤ s.m_end ∧ s.m_end ≤ s.slots.length

instance (s : StorageBase α) : Decidable (PtrInv s) := by
  unfold PtrInv; infer_instance

/-- The storage `StorageBase<int>{1, 2, 3}`. -/
def list_123 : StorageBase Nat := ⟨[1, 2, 3], 3, 3, 3, true⟩

/-- The storage `StorageBase<int>{4, 5, 6}`. -/
def list_456 : StorageBase Nat := ⟨[4, 5, 6], 3, 3, 3, true⟩

end StorageBase

namespace BufferBase

variable {α : Type}

/-- Unsigned subtraction `a - b` of `size_type` values. -/
def size_sub (a b : Nat) : Nat := (a + SIZE_MOD - b) % SIZE_MOD

/-- Function `substr(first, length)`; `return dest` moves `dest` out. -/
def substr [Inhabited α] (b : BufferBase α) (first length : Nat) : Option (BufferBase α) := do
  let length := if b.size < (first + length) % SIZE_MOD then size_sub b.size first else length
  let dest : BufferBase α := construct b.m_capacity
  let r ← dest.assign (b.slots.drop first) length
  pure (move_construct r.1).1

/-- Operator `operator[](size_type i)`: the exception, or the slot that the returned
reference designates. -/
def operator_index (b : BufferBase α) (i : Nat) : Option (Except Thrown α) :=
  if b.capacity < i then some (Except.error Thrown.out_of_range)
  else (b.slots[i]?).map Except.ok

/-- Operator `operator[](size_type i) const`. -/
def operator_index_const (b : BufferBase α) (i : Nat) : Option (Except Thrown α) :=
  if b.capacity < i then some (Except.error Thrown.out_of_range)
  else (b.slots[i]?).map Except.ok

/-- Function `at(size_type pos)` (the name is reserved in Lean). -/
def at_pos (b : BufferBase α) (pos : Nat) : Option (Except Thrown α) :=
  if b.capacity < pos then some (Except.error Thrown.out_of_range)
  else (b.slots[pos]?).map Except.ok

/-- The statement `x[i] = v`: an assignment through the reference that the mutable
`operator[]` returns. -/
def operator_index_store (b : BufferBase α) (i : Nat) (v : α) :
    Option (Except Thrown (BufferBase α)) :=
  if b.capacity < i then some (Except.error Thrown.out_of_range)
  else (store b.slots i v).map fun slots => Except.ok { b with slots := slots }

/-- The buffer of the test case "BufferBase basic": `ByteBuffer(8)` after `push_back` of
the bytes 0 to 7. -/
def basic_buffer : BufferBase Nat := ⟨⟨[0, 1, 2, 3, 4, 5, 6, 7], 8, 8, 8, true⟩, 0⟩

end BufferBase


namespace StorageBase

variable {α : Type}

/-- Constructor 1, `StorageBase()`, which delegates to `StorageBase(default_volume())`. -/
def construct_default [Inhabited α] : StorageBase α := construct default_volume

/-- Function `shrink_to_fit()`. -/
def shrink_to_fit [Inhabited α] (st : StorageBase α) : Option (StorageBase α) :=
  if st.capacity ≤ st.size ∧ st.size ≠ 0 then some st
  else if st.is_inited then do
    let t ← copy_construct st
    let st1 := deallocate (destroy_all st)
    let st2 := (reserve st1 st1.size).1
    copy st2 t
  else some st

/-- A storage of capacity 4 holding 1, 2. -/
def half_storage : StorageBase Nat := ⟨[1, 2, 0, 0], 2, 4, 4, true⟩

/-- The full storage `StorageBase<int>(64, 0xdeadbeef)` of tests/storage/unit_test.cpp. -/
def beef_storage : StorageBase Nat := ⟨List.replicate 64 0xdeadbeef, 64, 64, 64, true⟩

end StorageBase


/-! ### result.hpp, byte_buffer.hpp, debug.hpp, notification.hpp, fsm.hpp, flag.hpp -/

def FAILURE : return_code := -1

namespace Result

variable {τ : Type}

/-- Constructor 2, `Result(const value_type& v)`. -/
def construct_copy (v : τ) : Result τ := Result.value v

/-- Constructor 3, `Result(value_type&& v)`. -/
def construct_move (v : τ) : Result τ := Result.value v

/-- Constructor 4, `Result(Args... args)`: the value is built in place as `T(args...)`;
`ctor` is that constructor of `T`. -/
def construct_args {A : Type} (ctor : A → τ) (args : A) : Result τ := Result.value (ctor args)

/-- Constructors 5 and 6, `Result(const error_type& e)` and `Result(error_type&& e)`. -/
def construct_error (e : error_type) : Result τ := Result.error e

/-- Function `value()`; reading the inactive member of the union is undefined. -/
def get_value : Result τ → Option τ
  | value v => some v
  | error _ => none

/-- Function `error()`, which is `m_error()`, the code held by the `error_type`. -/
def get_error : Result τ → Option return_code
  | value _ => none
  | error e => some e.m_error

end Result

/-- Function `to_string(const ByteBuffer& b)`, which is
`std::string(b.const_ptr(), b.size())`; a char is given by its byte value. -/
def to_string (b : BufferBase Nat) : Option (List Nat) :=
  if b.size = 0 then some []
  else if b.size ≤ b.slots.length then some (b.slots.take b.size) else none

/-- Function `from_string(const std::string& s)`. -/
def from_string (s : List Nat) : Option (BufferBase Nat) := do
  let b : BufferBase Nat := BufferBase.construct s.length
  let st ← StorageBase.copy_from b.toStorageBase s s.length
  pure ⟨st, b.m_read⟩

namespace Debug

/-- The characters of a string literal as bytes. -/
def bytes (s : String) : List Nat := s.toList.map Char.toNat

/-- Table `ctrlCharTbl` of debug.hpp. -/
def ctrlCharTbl : List String := [
  "[NUL]", "[SOH]", "[STX]", "[ETX]", "[EOT]", "[ENQ]", "[ACK]", "[BEL]",
  "[ BS]", "[ HT]", "[ LF]", "[ VT]", "[ FF]", "[ CR]", "[ SO]", "[ SI]",
  "[DEL]", "[DC1]", "[DC2]", "[DC3]", "[DC4]", "[NAK]", "[SYN]", "[ETB]",
  "[CAN]", "[ EM]", "[SUB]", "[ESC]", "[ FS]", "[ GS]", "[ RS]", "[ US]",
  "[80H]", "[81H]", "[82H]", "[83H]", "[84H]", "[85H]", "[86H]", "[87H]",
  "[88H]", "[89H]", "[8aH]", "[8bH]", "[8cH]", "[8dH]", "[8eH]", "[8fH]",
  "[90H]", "[91H]", "[92H]", "[93H]", "[94H]", "[95H]", "[96H]", "[97H]",
  "[98H]", "[99H]", "[9aH]", "[9bH]", "[9cH]", "[9dH]", "[9eH]", "[9fH]",
  "[a0H]", "[a1H]", "[a2H]", "[a3H]", "[a4H]", "[a5H]", "[a6H]", "[a7H]",
  "[a8H]", "[a9H]", "[aaH]", "[abH]", "[acH]", "[adH]", "[aeH]", "[afH]",
  "[b0H]", "[b1H]", "[b2H]", "[b3H]", "[b4H]", "[b5H]", "[b6H]", "[b7H]",
  "[b8H]", "[b9H]", "[baH]", "[bbH]", "[bcH]", "[bdH]", "[beH]", "[bfH]",
  "[c0H]", "[c1H]", "[c2H]", "[c3H]", "[c4H]", "[c5H]", "[c6H]", "[c7H]",
  "[c8H]", "[c9H]", "[caH]", "[cbH]", "[ccH]", "[cdH]", "[ceH]", "[cfH]",
  "[d0H]", "[d1H]", "[d2H]", "[d3H]", "[d4H]", "[d5H]", "[d6H]", "[d7H]",
  "[d8H]", "[d9H]", "[daH]", "[dbH]", "[dcH]", "[ddH]", "[deH]", "[dfH]",
  "[e0H]", "[e1H]", "[e2H]", "[e3H]", "[e4H]", "[e5H]", "[e6H]", "[e7H]",
  "[e8H]", "[e9H]", "[eaH]", "[ebH]", "[ecH]", "[edH]", "[eeH]", "[efH]",
  "[f0H]", "[f1H]", "[f2H]", "[f3H]", "[f4H]", "[f5H]", "[f6H]", "[f7H]",
  "[f8H]", "[f9H]", "[faH]", "[fbH]", "[fcH]", "[fdH]", "[feH]", "[EOF]"]

/-- The entry `ctrlCharTbl[i]` as bytes. -/
def ctrl_entry (i : Nat) : List Nat := bytes ((ctrlCharTbl[i]?).getD "")

/-- The body of the loop of `Debug::toReadableCtrlCode`: what one char `c` appends to
`d`.  The index `x - 0x60` is cast to `std::uint8_t`. -/
def append_readable (d : List Nat) (c : Nat) : List Nat :=
  let x := c % 256
  if x < 0x20 then d ++ ctrl_entry x
  else if x = 0x20 then d ++ bytes "[SPC]"
  else if x = 0x7f then d ++ bytes "[DEL]"
  else if x > 0x7f then
    if x = 0xff then d ++ bytes "[EOF]"
    else d ++ ctrl_entry ((x - 0x60) % 256)
  else d ++ [x]

/-- Function `Debug::toReadableCtrlCode(const std::string& s)`. -/
def toReadableCtrlCode (s : List Nat) : List Nat := s.foldl append_readable []

/-- The names of the ASCII control codes 0x00 to 0x1f (the words of the spec: "their
control-code name"), to be compared with the first 32 entries of `ctrlCharTbl`. -/
def ascii_control_names : List String := [
  "NUL", "SOH", "STX", "ETX", "EOT", "ENQ", "ACK", "BEL",
  "BS", "HT", "LF", "VT", "FF", "CR", "SO", "SI",
  "DLE", "DC1", "DC2", "DC3", "DC4", "NAK", "SYN", "ETB",
  "CAN", "EM", "SUB", "ESC", "FS", "GS", "RS", "US"]

/-- The five character token of a control-code name: the name in brackets, a two letter
name preceded by a blank. -/
def name_token (name : String) : List Nat :=
  bytes "[" ++ (if name.length = 2 then bytes " " else []) ++ bytes name ++ bytes "]"

/-- The token of the spec for a byte in 0x80 to 0xfe: its two lowercase hex digits
between "[" and "H]". -/
def hex_token (b : Nat) : List Nat :=
  bytes "[" ++ (Nat.toDigits 16 b).map Char.toNat ++ bytes "H]"

end Debug

/-- The body of the loop of `toReadableCtrlCode(ByteBuffer& s)` of byte_buffer.hpp; the
index `x - 0x60` is used as it is. -/
def append_readable_buffer (d : List Nat) (c : Nat) : List Nat :=
  let x := c % 256
  if x < 0x20 then d ++ Debug.ctrl_entry x
  else if x = 0x20 then d ++ Debug.bytes "[SPC]"
  else if x = 0x7f then d ++ Debug.bytes "[DEL]"
  else if x > 0x7f then
    if x = 0xff then d ++ Debug.bytes "[EOF]"
    else d ++ Debug.ctrl_entry (x - 0x60)
  else d ++ [x]

/-- Function `toReadableCtrlCode(ByteBuffer& s)`: the range-for runs from `begin()` to
`end()`, that is over `[m_head, m_tail)`. -/
def toReadableCtrlCode (s : BufferBase Nat) : Option (List Nat) :=
  if s.m_tail ≤ s.slots.length then some ((s.slots.take s.m_tail).foldl append_readable_buffer [])
  else none

/-- The conversion of a `return_code` (64 bit) to `int` (32 bit, two's complement). -/
def to_int (v : Int) : Int := (v + 2 ^ 31) % 2 ^ 32 - 2 ^ 31

/-- Class `Notification<Args...>`: the receiver `m_reciver`, empty or a callable.  A
receiver is a function of its arguments and of the state of the program `σ` it acts on. -/
structure Notification (A σ : Type) where
  m_reciver : Option (A → σ → return_code × σ)

namespace Notification

variable {A σ : Type}

/-- Function `connect(func)`. -/
def connect (_n : Notification A σ) (func : A → σ → return_code × σ) : Notification A σ :=
  ⟨some func⟩

/-- Function `notify(args...)`: the local `ret` is an `int`, and so is the result. -/
def notify (n : Notification A σ) (args : A) (w : σ) : Int × σ :=
  match n.m_reciver with
  | some f => (to_int (f args w).1, (f args w).2)
  | none => (to_int FAILURE, w)

/-- Operator `operator()(args...)`, which returns `notify(args...)`. -/
def operator_call (n : Notification A σ) (args : A) (w : σ) : Int × σ := n.notify args w

end Notification

/-- The receiver `function_i` of tests/notification/misc_test.cpp, which returns its
argument. -/
def function_i : return_code → Unit → return_code × Unit := fun i w => (i, w)

/-- The type `event_id` of fsm.hpp is `std::int64_t`. -/
abbrev event_id := Int

/-- A call of one of the hooks of the state object at an address. -/
inductive Hook where
  | entry (state : Nat)
  | doActivity (state : Nat)
  | exit (state : Nat)
deriving DecidableEq, Repr

/-- Class `State<C>`, as far as `dispatch` looks at it: the map `m_states` from event ids
to weak pointers; a weak pointer is expired (`none`) or locks to the state object at an
address. -/
structure State where
  m_states : List (event_id × Option Nat)
deriving DecidableEq, Repr

namespace State

/-- Function `next(id)`: null when `at(id)` throws or the weak pointer is expired. -/
def next (s : State) (id : event_id) : Option Nat :=
  match s.m_states.lookup id with
  | some (some p) => some p
  | some none => none
  | none => none

/-- Function `addNextState(id, p)`, which is `m_states[id] = p`. -/
def addNextState (s : State) (id : event_id) (p : Option Nat) : State :=
  ⟨(id, p) :: s.m_states.filter fun kv => kv.1 ≠ id⟩

end State

/-- Function `Fsm::dispatch(e)`: `heap` gives the state object at each address,
`m_current` is the current state (null is `none`); the result is the new `m_current` and
the hooks called, in order.  The bodies of the hooks are not modelled. -/
def dispatch (heap : Nat → State) (m_current : Option Nat) (e : event_id) :
    Option Nat × List Hook :=
  match m_current with
  | none => (none, [])
  | some c =>
    if e < 0 then (some c, [])
    else if e = 0 then (some c, [Hook.doActivity c])
    else
      match (heap c).next e with
      | some n => (some n, [Hook.exit c, Hook.entry n, Hook.doActivity n])
      | none => (some c, [Hook.exit c, Hook.entry c, Hook.doActivity c])

/-- Class `FlagRegister`: the 64 bit value `m_register`. -/
structure FlagRegister where
  m_register : Nat
deriving DecidableEq, Repr

namespace FlagRegister

/-- Function `mask(target)`, which is `~target` on 64 bits. -/
def mask (target : Nat) : Nat := (2 ^ 64 - 1) ^^^ (target % 2 ^ 64)

/-- Function `is_set(check_position)`. -/
def is_set (r : FlagRegister) (check_position : Nat) : Bool :=
  r.m_register &&& check_position != 0

/-- Function `set(bit_pattern)`. -/
def set (r : FlagRegister) (bit_pattern : Nat) : FlagRegister :=
  ⟨r.m_register ||| bit_pattern⟩

/-- Function `reset(bit_pattern)`. -/
def reset (r : FlagRegister) (bit_pattern : Nat) : FlagRegister :=
  ⟨r.m_register &&& mask bit_pattern⟩

/-- Function `set_reset(set_pattern, reset_pattern)`. -/
def set_reset (r : FlagRegister) (set_pattern reset_pattern : Nat) : FlagRegister :=
  let r1 : FlagRegister := ⟨r.m_register ||| set_pattern⟩
  ⟨r1.m_register &&& mask reset_pattern⟩

/-- Function `value()`. -/
def value (r : FlagRegister) : Nat := r.m_register

end FlagRegister


/-! ## Memory primitives -/

theorem std_copy_eq {α : Type} (src dst : List α) (n off : Nat)
    (hs : n ≤ src.length) (hd : off + n ≤ dst.length) :
    std_copy src n dst off = some (dst.take off ++ src.take n ++ dst.drop (off + n)) := by
  unfold std_copy
  by_cases hn : n = 0
  · subst hn; simp
  · simp [hn, hs, hd]

theorem std_copy_spec {α : Type} (src dst : List α) (n off : Nat)
    (hs : n ≤ src.length) (hd : off + n ≤ dst.length) :
    ∃ out, std_copy src n dst off = some out ∧ out.length = dst.length ∧
      out.take (off + n) = dst.take off ++ src.take n := by
  refine ⟨_, std_copy_eq src dst n off hs hd, ?_, ?_⟩
  · simp; omega
  · rw [List.take_append_of_le_length (by simp; omega)]
    rw [List.take_of_length_le (by simp; omega)]

theorem store_spec {α : Type} (dst : List α) (off : Nat) (v : α) (h : off < dst.length) :
    ∃ out, store dst off v = some out ∧ out.length = dst.length ∧
      out.take (off + 1) = dst.take off ++ [v] := by
  refine ⟨dst.set off v, by simp [store, h], by simp, ?_⟩
  rw [List.take_succ]
  simp [h]
  rw [List.set_take, List.set_eq_of_length_le (by simp)]

/-! ## Storage -/

namespace StorageBase

variable {α : Type}

theorem reserve_zero [Inhabited α] (st : StorageBase α) : (reserve st 0).1 = st := by
  simp [reserve, ZERO]

theorem reserve_pos [Inhabited α] (st : StorageBase α) (s : Nat) (hs : s ≠ 0) :
    (reserve st s).1 = ⟨List.replicate s default, 0, s, s, true⟩ := by
  simp [reserve, ZERO, hs, initialise]

theorem construct_spec [Inhabited α] (s : Nat) :
    (construct s : StorageBase α).Valid ∧ (construct s : StorageBase α).m_capacity = s ∧
      (construct s : StorageBase α).m_tail = 0 := by
  unfold construct
  by_cases hs : s = 0
  · subst hs; simp [reserve_zero, fresh, Valid]
  · simp [reserve_pos _ _ hs, Valid]

theorem live_getElem? (s : StorageBase α) (i : Nat) (h : i < s.m_tail) :
    s.live[i]? = s.slots[i]? := by
  unfold live
  exact List.getElem?_take_of_lt h

theorem live_length (s : StorageBase α) (h : s.Valid) : s.live.length = s.m_tail := by
  obtain ⟨h1, h2, h3, h4⟩ := h
  simp [live]; omega

/-- The copy constructor yields a valid storage of the same capacity, size and live
contents. -/
theorem copy_construct_spec [Inhabited α] (st : StorageBase α) (h : Valid st) :
    ∃ t, copy_construct st = some t ∧ Valid t ∧ t.m_capacity = st.m_capacity ∧
      t.m_tail = st.m_tail ∧ t.live = st.live := by
  obtain ⟨h1, h2, h3, h4⟩ := h
  unfold copy_construct copy capacity size
  by_cases hc : st.m_capacity = 0
  · have ht : st.m_tail = 0 := by omega
    rw [hc, reserve_zero, std_copy_eq _ _ _ _ (by omega) (by simp [fresh]; omega)]
    simp [fresh, update_tail, Valid, live, ht, hc]
  · rw [reserve_pos _ _ hc, std_copy_eq _ _ _ _ (by omega) (by simp; omega)]
    simp [update_tail, Valid, live]
    refine ⟨⟨by omega, by omega⟩, ?_⟩
    rw [List.take_append_of_le_length (by simp; omega)]
    simp

/-- On a valid storage `resize(s)` returns, adds `s` to the capacity and keeps the size
and the live contents. -/
theorem resize_spec [Inhabited α] (st : StorageBase α) (s : Nat) (h : Valid st) :
    ∃ st', resize st s = some st' ∧ Valid st' ∧ st'.m_capacity = st.m_capacity + s ∧
      st'.m_tail = st.m_tail ∧ st'.live = st.live := by
  obtain ⟨t, ht, ⟨t1, t2, t3, t4⟩, tc, tt, tl⟩ := copy_construct_spec st h
  obtain ⟨h1, h2, h3, h4⟩ := h
  unfold resize is_inited
  by_cases hi : st.m_init = true
  · simp only [hi, if_true, ht, Option.bind_eq_bind, Option.some_bind]
    unfold copy size destroy_all deallocate
    by_cases hc : st.m_capacity + s = 0
    · have hz : st.m_tail = 0 := by omega
      simp only [hc, reserve_zero]
      rw [std_copy_eq _ _ _ _ (by omega) (by simp; omega)]
      simp [update_tail, Valid, live, hz, tt]
      omega
    · simp only [reserve_pos _ _ hc]
      rw [std_copy_eq _ _ _ _ (by omega) (by simp; omega)]
      simp [update_tail, Valid]
      refine ⟨⟨by omega, by omega⟩, tt, ?_⟩
      rw [← tl]
      simp [live]
      rw [List.take_append_of_le_length (by simp; omega)]
      simp
  · have hc : st.m_capacity = 0 := by simpa [hi] using h4
    have hz : st.m_tail = 0 := by omega
    simp only [hi]
    by_cases hs : s = 0
    · subst hs
      simp [reserve_zero, Valid, h1, h2, h3, hc]
      exact ⟨by omega, Or.inl (List.length_eq_zero.mp (by omega))⟩
    · simp [reserve_pos _ _ hs, Valid, live, hz, hc]

/-- The growth step of `append`. -/
theorem grow_spec [Inhabited α] (st : StorageBase α) (n : Nat) (h : Valid st) :
    ∃ s', (if st.overflow n then st.resize n else some st) = some s' ∧ Valid s' ∧
      s'.m_tail = st.m_tail ∧ s'.live = st.live ∧ st.m_tail + n ≤ s'.m_end ∧
      s'.m_capacity = if st.m_tail + n > st.m_capacity then st.m_capacity + n
        else st.m_capacity := by
  have h' := h
  obtain ⟨h1, h2, h3, h4⟩ := h'
  by_cases ho : st.m_tail + n > st.m_end
  · obtain ⟨s', e, v, c, t, l⟩ := resize_spec st n h
    refine ⟨s', by simp [overflow, ho, e], v, t, l, ?_, ?_⟩
    · have := v.2.1; omega
    · rw [if_pos (by omega)]; exact c
  · refine ⟨st, by simp [overflow, ho], h, rfl, rfl, by omega, ?_⟩
    rw [if_neg (by omega)]

/-- The growth step of `push_back` on a storage with at least one slot. -/
theorem push_grow_spec [Inhabited α] (st : StorageBase α) (h : Valid st)
    (hc : 1 ≤ st.m_capacity) :
    ∃ s', (if st.full then st.resize_noarg else some st) = some s' ∧ Valid s' ∧
      s'.m_tail = st.m_tail ∧ s'.live = st.live ∧ st.m_tail < s'.m_end ∧
      s'.m_capacity = if st.m_tail = st.m_end then 3 * st.m_capacity
        else st.m_capacity := by
  have h' := h
  obtain ⟨h1, h2, h3, h4⟩ := h'
  by_cases hf : st.m_tail = st.m_end
  · obtain ⟨s', e, v, c, t, l⟩ := resize_spec st (st.m_capacity * 2) h
    refine ⟨s', by simp [full, hf, resize_noarg, e], v, t, l, ?_, ?_⟩
    · have := v.2.1; omega
    · rw [if_pos hf]; omega
  · refine ⟨st, by simp [full, hf], h, rfl, rfl, by omega, ?_⟩
    rw [if_neg hf]

end StorageBase

/-! ## Buffer -/

namespace BufferBase

variable {α : Type}

theorem append_cr_eq [Inhabited α] (b cr : BufferBase α) :
    b.append_cr cr = b.append cr.slots cr.size := rfl

theorem assign_cr_eq [Inhabited α] (b cr : BufferBase α) :
    b.assign_cr cr = b.assign cr.slots cr.size := rfl

theorem move_construct_fst (r : BufferBase α) : (move_construct r).1 = r := rfl

theorem append_spec [Inhabited α] (b : BufferBase α) (pv : List α) (n : Nat)
    (hv : b.Valid) (hn : n ≤ pv.length) :
    ∃ b', b.append pv n = some (b', OK) ∧ b'.Valid ∧ b'.live = b.live ++ pv.take n ∧
      b'.m_tail = b.m_tail + n ∧ b'.m_read = b.m_read ∧
      b'.m_capacity = if b.m_tail + n > b.m_capacity then b.m_capacity + n
        else b.m_capacity := by
  obtain ⟨s', e, v, t, l, r, c⟩ := StorageBase.grow_spec b.toStorageBase n hv
  have v' := v
  obtain ⟨v1, v2, v3, v4⟩ := v'
  obtain ⟨out, e2, ol, ot⟩ := std_copy_spec pv s'.slots n s'.m_tail hn (by omega)
  refine ⟨⟨StorageBase.update_tail { s' with slots := out } n, b.m_read⟩,
    ?_, ?_, ?_, ?_, rfl, ?_⟩
  · unfold append
    rw [e]
    simp [e2]
  · simp only [StorageBase.Valid, StorageBase.update_tail]
    exact ⟨by omega, v2, by omega, v4⟩
  · simp only [StorageBase.live, StorageBase.update_tail, ot]
    exact congrArg (· ++ List.take n pv) l
  · simp [StorageBase.update_tail, t]
  · simp [StorageBase.update_tail, c]

theorem assign_spec [Inhabited α] (b : BufferBase α) (pv : List α) (n : Nat)
    (hv : b.Valid) (hn : n ≤ pv.length) :
    ∃ b', b.assign pv n = some (b', OK) ∧ b'.Valid ∧ b'.live = pv.take n ∧
      b'.m_tail = n ∧ b'.m_read = 0 ∧ n ≤ b'.m_capacity ∧
      b'.m_capacity = if b.m_capacity < n then b.m_capacity + n else b.m_capacity := by
  have hg : ∃ s', (if b.capacity < n then b.toStorageBase.resize n else some b.toStorageBase)
      = some s' ∧ s'.Valid ∧ n ≤ s'.m_capacity ∧
      s'.m_capacity = if b.m_capacity < n then b.m_capacity + n else b.m_capacity := by
    by_cases hc : b.m_capacity < n
    · obtain ⟨s', e, v, c, _, _⟩ := StorageBase.resize_spec b.toStorageBase n hv
      exact ⟨s', by simp [StorageBase.capacity, hc, e], v, by omega, by simp [hc, c]⟩
    · exact ⟨b.toStorageBase, by simp [StorageBase.capacity, hc], hv, by omega, by simp [hc]⟩
  obtain ⟨s', e, v, c, c'⟩ := hg
  obtain ⟨v1, v2, v3, v4⟩ := v
  obtain ⟨out, e2, ol, ot⟩ := std_copy_spec pv s'.slots n 0 hn (by omega)
  refine ⟨⟨StorageBase.update_tail { s' with slots := out, m_tail := 0 } n, ZERO⟩,
    ?_, ?_, ?_, ?_, rfl, c, c'⟩
  · unfold assign
    rw [e]
    simp [clear, StorageBase.copy_range, e2]
  · simp only [StorageBase.Valid, StorageBase.update_tail]
    exact ⟨by omega, v2, by omega, v4⟩
  · simp only [StorageBase.live, StorageBase.update_tail, ot]
    simp
  · simp [StorageBase.update_tail]

theorem push_spec [Inhabited α] (b : BufferBase α) (v : α)
    (hv : b.Valid) (hc : 1 ≤ b.m_capacity) :
    ∃ b', b.push_back v = some (b', OK) ∧ b.push_back_rv v = some (b', OK) ∧
      b.push_back_ptr v = some (b', OK) ∧ b.operator_plus v = some b' ∧
      b'.Valid ∧ b'.live = b.live ++ [v] ∧ b'.m_tail = b.m_tail + 1 ∧
      b'.m_read = b.m_read ∧
      b'.m_capacity = if b.m_tail = b.m_end then 3 * b.m_capacity else b.m_capacity := by
  obtain ⟨s', e, vs, t, l, r, c⟩ := StorageBase.push_grow_spec b.toStorageBase hv hc
  have v' := vs
  obtain ⟨v1, v2, v3, v4⟩ := v'
  obtain ⟨out, e2, ol, ot⟩ := store_spec s'.slots s'.m_tail v (by omega)
  refine ⟨⟨{ s' with slots := out, m_tail := s'.m_tail + 1 }, b.m_read⟩,
    ?_, ?_, ?_, ?_, ?_, ?_, ?_, rfl, c⟩
  · unfold push_back; rw [e]; simp [e2]
  · unfold push_back_rv; rw [e]; simp [e2]
  · unfold push_back_ptr; rw [e]; simp [e2]
  · unfold operator_plus; rw [e]; simp [e2]
  · simp only [StorageBase.Valid]
    exact ⟨by omega, v2, by omega, v4⟩
  · simp only [StorageBase.live, ot]
    exact congrArg (· ++ [v]) l
  · simp [t]

theorem read_spec (b : BufferBase α) (hv : b.Valid) (hp : b.m_read < b.size) :
    ∃ v, b.live[b.m_read]? = some v ∧
      b.read = some ({ b with m_read := b.m_read + 1 }, Except.ok v) := by
  obtain ⟨h1, h2, h3, h4⟩ := hv
  have hp' : b.m_read < b.m_tail := hp
  have hl : b.m_read < b.slots.length := by omega
  refine ⟨b.slots[b.m_read], ?_, ?_⟩
  · rw [StorageBase.live_getElem? _ _ hp']
    exact List.getElem?_eq_getElem hl
  · unfold read
    simp only [StorageBase.size]
    rw [if_neg (by omega), List.getElem?_eq_getElem hl]
    rfl

theorem extract_spec [Inhabited α] (b : BufferBase α) (first length : Nat)
    (hv : b.Valid) (h : first + length ≤ b.size) :
    ∃ r, b.extract first length = some (Result.value r) ∧ r.Valid ∧ r.size = length ∧
      r.m_capacity = b.m_capacity ∧ r.live = (b.live.drop first).take length ∧
      ∀ i, i < length → r.slots[i]? = b.slots[first + i]? := by
  have hv' := hv
  obtain ⟨h1, h2, h3, h4⟩ := hv'
  have hsz : b.size = b.m_tail := rfl
  obtain ⟨cv, cc, ct⟩ := StorageBase.construct_spec (α := α) b.m_capacity
  obtain ⟨r1, e1, v1, l1, t1, p1, -, c1⟩ :=
    assign_spec (construct b.m_capacity) (b.slots.drop first) length cv
      (by simp; omega)
  obtain ⟨t, e2, vt, tc, tt, tl⟩ := StorageBase.copy_construct_spec r1.toStorageBase v1
  have hl : t.live = (b.live.drop first).take length := by
    rw [tl, l1]
    simp only [StorageBase.live]
    rw [List.drop_take, List.take_take]
    congr 1
    omega
  have hcap : t.m_capacity = b.m_capacity := by
    rw [tc, c1]
    have : (construct b.m_capacity : BufferBase α).m_capacity = b.m_capacity := cc
    rw [this, if_neg (by omega)]
  refine ⟨⟨t, r1.m_read⟩, ?_, vt, by simp [StorageBase.size, tt, t1], hcap, hl, ?_⟩
  · unfold extract
    rw [if_neg (by have := Nat.mod_le (first + length) SIZE_MOD; omega)]
    simp [e1, move_construct_fst, copy_construct, e2]
  · intro i hi
    have ht : i < t.m_tail := by omega
    show t.slots[i]? = b.slots[first + i]?
    rw [← StorageBase.live_getElem? t i ht, tl, l1, List.getElem?_take_of_lt hi,
      List.getElem?_drop]

theorem cr_bound (cr : BufferBase α) (h : cr.Valid) : cr.size ≤ cr.slots.length := by
  have := h.1; have := h.2.2.1; show cr.m_tail ≤ _; omega

/-- Every admissible call on a valid buffer with at least one slot returns and keeps the
data model and the cursor and size invariant. -/
theorem step_keeps_invariant [Inhabited α] (b : BufferBase α) (op : Op α)
    (hv : b.Valid) (hi : Inv b) (hc : 1 ≤ b.capacity) (ha : Admissible b op) :
    ∃ b', step b op = some b' ∧ b'.Valid ∧ Inv b' ∧ 1 ≤ b'.capacity := by
  have hv' := hv
  obtain ⟨h1, h2, h3, h4⟩ := hv'
  obtain ⟨-, hr, hs⟩ := hi
  have hr' : b.m_read ≤ b.m_tail := hr
  have hc' : 1 ≤ b.m_capacity := hc
  have fin : ∀ b' : BufferBase α, b'.Valid → b'.m_read ≤ b'.m_tail →
      1 ≤ b'.m_capacity → b'.Valid ∧ Inv b' ∧ 1 ≤ b'.capacity := by
    intro b' v r c
    refine ⟨v, ⟨Nat.zero_le _, r, ?_⟩, c⟩
    have := v.2.1; have := v.2.2.1
    show b'.m_tail ≤ b'.m_capacity
    omega
  cases op with
  | clear =>
    exact ⟨b.clear, rfl, fin _ ⟨h1, h2, Nat.zero_le _, h4⟩ (Nat.le_refl _) hc'⟩
  | append pv n =>
    obtain ⟨b', e, v, -, t, r, c⟩ := append_spec b pv n hv ha
    refine ⟨b', by simp [step, e], fin b' v (by omega) ?_⟩
    rw [c]; split <;> omega
  | append_cr cr =>
    obtain ⟨b', e, v, -, t, r, c⟩ := append_spec b cr.slots cr.size hv (cr_bound cr ha)
    refine ⟨b', by simp [step, append_cr_eq, e], fin b' v (by omega) ?_⟩
    rw [c]; split <;> omega
  | assign pv n =>
    obtain ⟨b', e, v, -, t, r, -, c⟩ := assign_spec b pv n hv ha
    refine ⟨b', by simp [step, e], fin b' v (by omega) ?_⟩
    rw [c]; split <;> omega
  | assign_cr cr =>
    obtain ⟨b', e, v, -, t, r, -, c⟩ := assign_spec b cr.slots cr.size hv (cr_bound cr ha)
    refine ⟨b', by simp [step, assign_cr_eq, e], fin b' v (by omega) ?_⟩
    rw [c]; split <;> omega
  | push_back x =>
    obtain ⟨b', e, -, -, -, v, -, t, r, c⟩ := push_spec b x hv hc'
    refine ⟨b', by simp [step, e], fin b' v (by omega) ?_⟩
    rw [c]; split <;> omega
  | push_back_rv x =>
    obtain ⟨b', -, e, -, -, v, -, t, r, c⟩ := push_spec b x hv hc'
    refine ⟨b', by simp [step, e], fin b' v (by omega) ?_⟩
    rw [c]; split <;> omega
  | push_back_ptr x =>
    obtain ⟨b', -, -, e, -, v, -, t, r, c⟩ := push_spec b x hv hc'
    refine ⟨b', by simp [step, e], fin b' v (by omega) ?_⟩
    rw [c]; split <;> omega
  | operator_plus x =>
    obtain ⟨b', -, -, -, e, v, -, t, r, c⟩ := push_spec b x hv hc'
    refine ⟨b', by simp [step, e], fin b' v (by omega) ?_⟩
    rw [c]; split <;> omega
  | read =>
    obtain ⟨x, -, e⟩ := read_spec b hv ha
    have ha' : b.m_read < b.m_tail := ha
    exact ⟨{ b with m_read := b.m_read + 1 }, by simp [step, e],
      fin _ hv (by show b.m_read + 1 ≤ b.m_tail; omega) hc'⟩
  | put_back =>
    refine ⟨b.put_back.1, rfl, ?_⟩
    unfold put_back
    split
    · exact fin _ hv (by show b.m_read - 1 ≤ b.m_tail; omega) hc'
    · exact fin _ hv (Nat.zero_le _) hc'
  | position newPos =>
    refine ⟨(b.position_set newPos).1, rfl, ?_⟩
    unfold position_set
    split
    · exact fin _ hv hr' hc'
    · rename_i hn
      exact fin _ hv (by simp only [StorageBase.size] at hn; show newPos ≤ b.m_tail; omega) hc'

/-- The cursor and size invariant holds after every sequence of admissible calls. -/
theorem run_keeps_invariant [Inhabited α] (ops : List (Op α)) :
    ∀ b : BufferBase α, b.Valid → Inv b → 1 ≤ b.capacity → AdmissibleRun b ops →
      ∃ b', run b ops = some b' ∧ b'.Valid ∧ Inv b' := by
  induction ops with
  | nil => intro b hv hi _ _; exact ⟨b, rfl, hv, hi⟩
  | cons op ops ih =>
    intro b hv hi hc ha
    obtain ⟨b1, e, v1, i1, c1⟩ := step_keeps_invariant b op hv hi hc ha.1
    obtain ⟨b', e', v', i'⟩ := ih b1 v1 i1 c1 (ha.2 b1 e)
    exact ⟨b', by simp [run, e, e'], v', i'⟩

/-! ### Test scenarios -/

/-- The buffer `hello_buffer` is what `ByteBuffer(16)` holds after
`assign("Hello world!!", 13)`. -/
theorem hello_buffer_assigned :
    (construct 16 : BufferBase Nat).assign hello_world 13 = some (hello_buffer, OK) := by
  decide

/-- Scenario E of the tests: five calls of `read()` yield the codes of `H e l l o`,
`put_back()` and `read()` yield `o` again, `position(12)` and `read()` yield `!`, and the
next `read()` throws. -/
theorem scenario_read :
    (do
      let r1 ← hello_buffer.read
      let r2 ← r1.1.read
      let r3 ← r2.1.read
      let r4 ← r3.1.read
      let r5 ← r4.1.read
      let r6 ← r5.1.put_back.1.read
      let r7 ← (r6.1.position_set 12).1.read
      let r8 ← r7.1.read
      pure [r1.2, r2.2, r3.2, r4.2, r5.2, r6.2, r7.2, r8.2]) =
    some [Except.ok 'H'.toNat, Except.ok 'e'.toNat, Except.ok 'l'.toNat, Except.ok 'l'.toNat,
      Except.ok 'o'.toNat, Except.ok 'o'.toNat, Except.ok '!'.toNat,
      Except.error Thrown.out_of_range] := by
  rfl

/-- Scenario C of the tests: `extract(6, 5)` of the hello buffer holds `world`. -/
theorem scenario_extract :
    (hello_buffer.extract 6 5).map
      (fun r => match r with
        | Result.value v => v.live
        | Result.error _ => []) = some ("world".toList.map Char.toNat) := by
  decide

/-- On every full valid buffer with at least one slot `push_back` triples the capacity. -/
theorem push_back_full_capacity {α : Type} [Inhabited α] (b : BufferBase α) (v : α)
    (hv : b.Valid) (hc : 1 ≤ b.m_capacity) (hf : b.m_tail = b.m_end) :
    ∃ b', b.push_back v = some (b', OK) ∧ b'.m_capacity = 3 * b.m_capacity := by
  obtain ⟨b', e, -, -, -, -, -, -, -, c⟩ := push_spec b v hv hc
  exact ⟨b', e, by rw [c, if_pos hf]⟩

end BufferBase

/-! ## Range extraction and assignment between storages -/

namespace BufferBase
variable {α : Type}

/-- Reading `n` elements from a source that holds fewer is undefined, whether or not the
buffer grows first. -/
theorem assign_none [Inhabited α] (b : BufferBase α) (pv : List α) (n : Nat)
    (h0 : n ≠ 0) (hn : pv.length < n) : b.assign pv n = none := by
  have hc : ∀ dst : List α, std_copy pv n dst 0 = none := by
    intro dst
    unfold std_copy
    rw [if_neg h0, if_neg (by omega)]
  unfold assign
  cases (if b.capacity < n then b.toStorageBase.resize n else some b.toStorageBase) with
  | none => rfl
  | some s => simp [StorageBase.copy_range, clear, hc]

/-- When `first + length` does not wrap and exceeds the size, `extract` returns the
failure result. -/
theorem extract_out_of_range [Inhabited α] (b : BufferBase α) (first length : Nat)
    (h : b.size < first + length) (hw : first + length < SIZE_MOD) :
    b.extract first length = some (Result.error ⟨OUT_OF_RANGE⟩) := by
  unfold extract
  rw [Nat.mod_eq_of_lt hw, if_pos h]

theorem substr_in_range [Inhabited α] (b : BufferBase α) (first length : Nat)
    (hv : b.Valid) (h : first + length ≤ b.size) :
    ∃ r, b.substr first length = some r ∧ r.Valid ∧ r.size = length ∧
      r.m_capacity = b.m_capacity ∧ r.live = (b.live.drop first).take length := by
  have hv' := hv
  obtain ⟨h1, h2, h3, h4⟩ := hv'
  have hsz : b.size = b.m_tail := rfl
  obtain ⟨cv, cc, ct⟩ := StorageBase.construct_spec (α := α) b.m_capacity
  obtain ⟨r1, e1, v1, l1, t1, p1, -, c1⟩ :=
    assign_spec (construct b.m_capacity) (b.slots.drop first) length cv
      (by simp; omega)
  refine ⟨r1, ?_, v1, t1, ?_, ?_⟩
  · unfold substr
    rw [if_neg (by have := Nat.mod_le (first + length) SIZE_MOD; omega)]
    simp [e1, move_construct_fst]
  · rw [c1]
    have : (construct b.m_capacity : BufferBase α).m_capacity = b.m_capacity := cc
    rw [this, if_neg (by omega)]
  · rw [l1]
    simp only [StorageBase.live]
    rw [List.drop_take, List.take_take]
    congr 1
    omega

theorem substr_clamped [Inhabited α] (b : BufferBase α) (first length : Nat)
    (hv : b.Valid) (hf : first ≤ b.size) (h : b.size < first + length)
    (hw : first + length < SIZE_MOD) :
    ∃ r, b.substr first length = some r ∧ r.Valid ∧ r.size = b.size - first ∧
      r.m_capacity = b.m_capacity ∧ r.live = b.live.drop first := by
  have hv' := hv
  obtain ⟨h1, h2, h3, h4⟩ := hv'
  have hsz : b.size = b.m_tail := rfl
  have hs : size_sub b.size first = b.m_tail - first := by
    unfold size_sub
    rw [hsz, show b.m_tail + SIZE_MOD - first = (b.m_tail - first) + SIZE_MOD by omega,
      Nat.add_mod_right, Nat.mod_eq_of_lt (by omega)]
  obtain ⟨cv, cc, ct⟩ := StorageBase.construct_spec (α := α) b.m_capacity
  obtain ⟨r1, e1, v1, l1, t1, p1, -, c1⟩ :=
    assign_spec (construct b.m_capacity) (b.slots.drop first) (b.m_tail - first) cv
      (by simp; omega)
  refine ⟨r1, ?_, v1, t1, ?_, ?_⟩
  · unfold substr
    rw [Nat.mod_eq_of_lt hw, if_pos h, hs]
    simp [e1, move_construct_fst]
  · rw [c1]
    have : (construct b.m_capacity : BufferBase α).m_capacity = b.m_capacity := cc
    rw [this, if_neg (by omega)]
  · rw [l1]
    simp only [StorageBase.live]
    rw [List.drop_take]

end BufferBase

namespace StorageBase
variable {α : Type}

/-- Copy assignment into an empty valid storage of sufficient capacity gives the size and
the live contents of `rhs`. -/
theorem copy_assign_into_empty (st rhs : StorageBase α) (hs : st.Valid) (hr : rhs.Valid)
    (he : st.m_tail = 0) (hc : rhs.m_capacity ≤ st.m_capacity) :
    ∃ st', copy_assign st rhs = some st' ∧ st'.Valid ∧ st'.size = rhs.size ∧
      st'.live = rhs.live ∧ st'.m_capacity = st.m_capacity := by
  obtain ⟨s1, s2, s3, s4⟩ := hs
  obtain ⟨r1, r2, r3, r4⟩ := hr
  obtain ⟨out, e, ol, ot⟩ := std_copy_spec rhs.slots st.slots rhs.m_tail 0 (by omega) (by omega)
  refine ⟨update_tail { st with slots := out } rhs.size, ?_, ?_, ?_, ?_, rfl⟩
  · unfold copy_assign copy
    rw [if_pos hc]
    simp [size, e]
  · simp only [Valid, update_tail, size]
    exact ⟨by omega, s2, by omega, s4⟩
  · simp [update_tail, size, he]
  · simp only [live, update_tail, size, he]
    rw [ot]
    simp

set_option maxRecDepth 8000 in
/-- The test case "Copy assign": an empty 64 slot storage assigned from a full one. -/
theorem scenario_copy_assign :
    ∃ x y y', construct_fill 64 (0xdeadbeef : Nat) = some x ∧ x.size = 64 ∧
      construct default_volume = y ∧ y.size = 0 ∧
      copy_assign y x = some y' ∧ y'.capacity = x.capacity ∧ y'.size = x.size ∧
      y'.slots[0]? = some 0xdeadbeef :=
  ⟨_, _, _, rfl, rfl, rfl, rfl, rfl, rfl, rfl, rfl⟩

end StorageBase

namespace StorageBase
variable {α : Type}

/-- The loop `*m_tail++ = x` over `l`, started with room for `l` behind `m_tail`, stores
`l` from `m_tail` on and advances `m_tail` by the length of `l`. -/
theorem fill_from_spec (l : List α) :
    ∀ st : StorageBase α, st.m_tail + l.length ≤ st.slots.length →
      fill_from st l = some { st with
        slots := st.slots.take st.m_tail ++ l ++ st.slots.drop (st.m_tail + l.length),
        m_tail := st.m_tail + l.length } := by
  induction l with
  | nil =>
    intro st _
    simp [fill_from]
  | cons x l ih =>
    intro st h
    have hl : st.m_tail < st.slots.length := by simp at h; omega
    have hs : store st.slots st.m_tail x = some (st.slots.set st.m_tail x) := by
      simp [store, hl]
    have e1 : List.take st.m_tail (st.slots.set st.m_tail x) = List.take st.m_tail st.slots := by
      rw [List.set_take, List.set_eq_of_length_le (by simp)]
    have e2 : (st.slots.set st.m_tail x)[st.m_tail]?.toList = [x] := by simp [hl]
    have e3 : List.drop (st.m_tail + 1 + l.length) (st.slots.set st.m_tail x) =
        List.drop (st.m_tail + (l.length + 1)) st.slots := by
      rw [List.drop_set, if_pos (by omega)]
      congr 1
      omega
    simp only [fill_from, hs, Option.bind_eq_bind, Option.some_bind]
    rw [ih _ (by simp at h ⊢; omega)]
    simp only [List.length_cons, List.length_set]
    congr 2
    · rw [List.take_succ, e1, e2, e3]
      simp
    · omega

/-- The initializer list constructor returns a valid full storage whose slots are the
list. -/
theorem construct_list_spec [Inhabited α] (l : List α) :
    construct_list l = some ⟨l, l.length, l.length, l.length, decide (l.length ≠ 0)⟩ := by
  unfold construct_list
  by_cases hl : l.length = 0
  · have : l = [] := List.length_eq_zero.mp hl
    subst this
    simp [reserve_zero, fill_from, fresh]
  · rw [reserve_pos _ _ hl, fill_from_spec l _ (by simp)]
    simp [hl]

/-- The fill constructor returns a valid full storage whose slots all hold `v`. -/
theorem construct_fill_spec [Inhabited α] (s : Nat) (v : α) :
    construct_fill s v = some ⟨List.replicate s v, s, s, s, decide (s ≠ 0)⟩ := by
  unfold construct_fill
  by_cases hs : s = 0
  · subst hs
    simp [reserve_zero, fill_from, fresh]
  · rw [reserve_pos _ _ hs, fill_from_spec _ _ (by simp)]
    simp [hs]

/-- The constructors and the two move operations keep `m_head <= m_tail <= m_end`. -/
theorem pointer_order_kept [Inhabited α] (st rhs : StorageBase α) (s : Nat) (v : α)
    (l : List α) (hs : PtrInv st) (hr : PtrInv rhs) (hv : rhs.Valid) :
    PtrInv (construct s : StorageBase α) ∧
    (∃ t, construct_fill s v = some t ∧ PtrInv t) ∧
    (∃ t, construct_list l = some t ∧ PtrInv t) ∧
    (∃ t, copy_construct rhs = some t ∧ PtrInv t) ∧
    PtrInv (move_construct rhs).1 ∧ PtrInv (move_construct rhs).2 ∧
    PtrInv (move_assign st rhs).1 ∧ PtrInv (move_assign st rhs).2 := by
  refine ⟨?_, ?_, ?_, ?_, hr, ?_, ?_, ?_⟩
  · have h := (construct_spec (α := α) s).1
    exact ⟨h.2.2.1, by rw [h.1]⟩
  · exact ⟨_, construct_fill_spec s v, by simp [PtrInv]⟩
  · exact ⟨_, construct_list_spec l, by simp [PtrInv]⟩
  · obtain ⟨t, e, vt, -, -, -⟩ := copy_construct_spec rhs hv
    exact ⟨t, e, vt.2.2.1, by rw [vt.1]⟩
  · simp [move_construct, PtrInv]
  · unfold move_assign
    split
    · exact hr
    · exact hs
  · unfold move_assign
    split
    · simp [PtrInv]
    · exact hr

end StorageBase

namespace BufferBase

variable {α : Type}

/-- The accessors throw exactly for an index above the capacity, in every state. -/
theorem index_throws_iff (b : BufferBase α) (i : Nat) :
    (b.operator_index i = some (Except.error Thrown.out_of_range) ↔ i > b.capacity) ∧
    (b.operator_index_const i = some (Except.error Thrown.out_of_range) ↔ i > b.capacity) ∧
    (b.at_pos i = some (Except.error Thrown.out_of_range) ↔ i > b.capacity) := by
  unfold operator_index operator_index_const at_pos
  by_cases h : b.capacity < i
  · simp [h]
  · simp [h]

/-- The buffer `basic_buffer` is what `ByteBuffer(8)` holds after eight calls of
`push_back`. -/
theorem basic_buffer_pushed :
    run (construct 8 : BufferBase Nat)
      [Op.push_back 0, Op.push_back 1, Op.push_back 2, Op.push_back 3, Op.push_back 4,
        Op.push_back 5, Op.push_back 6, Op.push_back 7] = some basic_buffer := by
  decide

end BufferBase

/-! ## Construction, moves and shrinking -/

namespace StorageBase
variable {α : Type}

/-- The copy constructor on a storage whose live range lies inside its block and whose
size does not exceed `capacity()`: a valid storage of the same capacity, size and live
contents.  This covers moved-from storages and destinations of a move assignment. -/
theorem copy_construct_general [Inhabited α] (rhs : StorageBase α)
    (h1 : rhs.m_tail ≤ rhs.slots.length) (h2 : rhs.m_tail ≤ rhs.m_capacity) :
    ∃ t, copy_construct rhs = some t ∧ Valid t ∧ t.m_capacity = rhs.m_capacity ∧
      t.m_tail = rhs.m_tail ∧ t.live = rhs.live := by
  unfold copy_construct copy capacity size
  by_cases hc : rhs.m_capacity = 0
  · have ht : rhs.m_tail = 0 := by omega
    rw [hc, reserve_zero, std_copy_eq _ _ _ _ (by omega) (by simp [fresh]; omega)]
    simp [fresh, update_tail, Valid, live, ht, hc]
  · rw [reserve_pos _ _ hc, std_copy_eq _ _ _ _ (by omega) (by simp; omega)]
    simp [update_tail, Valid, live]
    refine ⟨⟨by omega, by omega⟩, ?_⟩
    rw [List.take_append_of_le_length (by simp; omega)]
    simp

/-- On an initialised storage that holds elements and has spare capacity, the call
`shrink_to_fit()` copies the elements into the block it has just released. -/
theorem shrink_to_fit_spare [Inhabited α] (st : StorageBase α) (hv : st.Valid)
    (hi : st.is_inited = true) (h0 : 0 < st.size) (hc : st.size < st.capacity) :
    shrink_to_fit st = none := by
  obtain ⟨t, ht, -, -, tt, -⟩ := copy_construct_spec st hv
  have h0' : 0 < st.m_tail := h0
  have hc' : st.m_tail < st.m_capacity := hc
  unfold shrink_to_fit
  rw [if_neg (by simp only [capacity, size]; omega), if_pos hi]
  simp only [ht, Option.bind_eq_bind, Option.some_bind]
  simp only [destroy_all, deallocate, size, reserve_zero]
  unfold copy std_copy
  simp only [size, tt]
  rw [if_neg (by omega), if_neg (by simp; omega)]
  rfl

/-- On an initialised empty storage `shrink_to_fit()` releases the block and leaves
`m_end`, `m_capacity` and `m_init` as they were. -/
theorem shrink_to_fit_empty [Inhabited α] (st : StorageBase α) (hv : st.Valid)
    (hi : st.is_inited = true) (h0 : st.size = 0) :
    shrink_to_fit st = some { st with slots := [], m_tail := 0 } := by
  obtain ⟨t, ht, -, -, tt, -⟩ := copy_construct_spec st hv
  have h0' : st.m_tail = 0 := h0
  unfold shrink_to_fit
  rw [if_neg (by simp [h0]), if_pos hi]
  simp only [ht, Option.bind_eq_bind, Option.some_bind]
  simp only [destroy_all, deallocate, size, reserve_zero]
  unfold copy std_copy
  simp [size, tt, h0', update_tail]

/-- When the storage is tight and not empty `shrink_to_fit()` returns at once. -/
theorem shrink_to_fit_tight [Inhabited α] (st : StorageBase α)
    (hc : st.capacity ≤ st.size) (h0 : st.size ≠ 0) : shrink_to_fit st = some st := by
  unfold shrink_to_fit
  rw [if_pos ⟨hc, h0⟩]

end StorageBase

namespace StorageBase
variable {α : Type}

/-- The storage `beef_storage` is what the fill constructor builds from 64 and
`0xdeadbeef`, and `half_storage` is `StorageBase<int>(4)` after `copy_from(p, 2)` with
`p = {1, 2}`. -/
theorem test_storages_built :
    construct_fill 64 (0xdeadbeef : Nat) = some beef_storage ∧
      copy_from (construct 4 : StorageBase Nat) [1, 2] 2 = some half_storage :=
  ⟨construct_fill_spec 64 0xdeadbeef, by decide⟩

/-- A storage that has been moved from, by the move constructor or by move assignment,
converts to false, has size 0 and keeps the `m_capacity` it had. -/
theorem moved_from_state (st rhs : StorageBase α) (hc : rhs.capacity ≤ st.capacity) :
    (move_construct rhs).2.is_inited = false ∧ (move_construct rhs).2.size = 0 ∧
      (move_construct rhs).2.capacity = rhs.capacity ∧
      (move_assign st rhs).2.is_inited = false ∧ (move_assign st rhs).2.size = 0 ∧
      (move_assign st rhs).2.capacity = rhs.capacity := by
  have hc' : st.m_capacity ≥ rhs.m_capacity := hc
  simp [move_construct, move_assign, hc', is_inited, size, capacity]

/-- An initialised storage is still initialised after `resize`. -/
theorem resize_inited [Inhabited α] (st st' : StorageBase α) (s : Nat)
    (hi : st.is_inited = true) (e : resize st s = some st') : st'.is_inited = true := by
  have hc : ∀ a rhs b : StorageBase α, copy a rhs = some b → b.m_init = a.m_init := by
    intro a rhs b h
    unfold copy at h
    cases hs : std_copy rhs.slots rhs.size a.slots 0 with
    | none => simp [hs] at h
    | some out =>
      simp [hs] at h
      rw [← h]
      rfl
  have hr : ∀ (a : StorageBase α) (n : Nat), a.m_init = true → (reserve a n).1.m_init = true := by
    intro a n h
    by_cases hn : n = 0
    · subst hn; rw [reserve_zero]; exact h
    · rw [reserve_pos _ _ hn]
  unfold resize at e
  rw [if_pos hi] at e
  cases ht : copy_construct st with
  | none => simp [ht] at e
  | some t =>
    simp only [ht, Option.bind_eq_bind, Option.some_bind] at e
    show st'.m_init = true
    rw [hc _ _ _ e]
    exact hr _ _ hi

end StorageBase

/-! ## Strings and readable rendering -/

/-- The buffer built by `from_string` holds exactly the bytes of the string. -/
theorem from_string_spec (s : List Nat) :
    from_string s = some ⟨⟨s, s.length, s.length, s.length, decide (s.length ≠ 0)⟩, 0⟩ := by
  unfold from_string BufferBase.construct StorageBase.construct StorageBase.copy_from
  by_cases hl : s.length = 0
  · have : s = [] := List.length_eq_zero.mp hl
    subst this
    simp [StorageBase.reserve_zero, StorageBase.fresh, std_copy, StorageBase.update_tail, ZERO]
  · simp only [StorageBase.reserve_pos _ _ hl]
    rw [std_copy_eq _ _ _ _ (Nat.le_refl _) (by simp)]
    simp [StorageBase.update_tail, hl, ZERO]

/-- Scenario D of the tests: `to_string(from_string("Wellcaome to the hell"))` is the
string again. -/
theorem scenario_string :
    (do
      let b ← from_string (Debug.bytes "Wellcaome to the hell")
      to_string b) = some (Debug.bytes "Wellcaome to the hell") := by
  rw [from_string_spec]
  rfl

namespace Debug

set_option maxRecDepth 100000 in
/-- What one byte appends, for each of the 256 byte values: both versions agree; the bytes
0x21 to 0x7e pass through; every other byte gives five characters; 0x20, 0x7f, 0xff give
`[SPC]`, `[DEL]`, `[EOF]`; 0x80 to 0xfe give the hex token; the bytes below 0x20 other
than 0x10 give the token of their ASCII name. -/
theorem byte_rendering :
    ∀ x, x < 256 →
      append_readable [] x = append_readable_buffer [] x ∧
      (0x21 ≤ x ∧ x ≤ 0x7e → append_readable [] x = [x]) ∧
      (¬ (0x21 ≤ x ∧ x ≤ 0x7e) → (append_readable [] x).length = 5) ∧
      (x = 0x20 → append_readable [] x = bytes "[SPC]") ∧
      (x = 0x7f → append_readable [] x = bytes "[DEL]") ∧
      (x = 0xff → append_readable [] x = bytes "[EOF]") ∧
      (0x80 ≤ x ∧ x ≤ 0xfe → append_readable [] x = hex_token x) ∧
      (x < 0x20 ∧ x ≠ 0x10 →
        append_readable [] x = name_token ((ascii_control_names[x]?).getD "")) := by
  decide

theorem append_readable_eq (d : List Nat) (c : Nat) :
    append_readable d c = d ++ append_readable [] (c % 256) := by
  unfold append_readable
  rw [Nat.mod_mod]
  dsimp only
  split_ifs <;> simp only [List.nil_append]

theorem toReadableCtrlCode_eq (s : List Nat) :
    toReadableCtrlCode s = s.flatMap fun c => append_readable [] (c % 256) := by
  unfold toReadableCtrlCode
  have key : ∀ (l d : List Nat), l.foldl append_readable d =
      d ++ l.flatMap fun c => append_readable [] (c % 256) := by
    intro l
    induction l with
    | nil => intro d; simp
    | cons c l ih =>
      intro d
      rw [List.foldl_cons, ih, append_readable_eq d c]
      simp [List.flatMap_cons]
  simpa using key s []

end Debug

theorem append_readable_buffer_eq (d : List Nat) (c : Nat) :
    append_readable_buffer d c = Debug.append_readable d c := by
  have h := (Debug.byte_rendering (c % 256) (Nat.mod_lt _ (by decide))).1
  have e1 : append_readable_buffer d c = d ++ append_readable_buffer [] (c % 256) := by
    unfold append_readable_buffer
    rw [Nat.mod_mod]
    dsimp only
    split_ifs <;> simp only [List.nil_append]
  rw [e1, Debug.append_readable_eq, h]

/-- On a buffer whose live range lies in its block, the ByteBuffer version gives what the
string version gives on the live contents. -/
theorem toReadableCtrlCode_buffer (b : BufferBase Nat) (h : b.m_tail ≤ b.slots.length) :
    toReadableCtrlCode b = some (Debug.toReadableCtrlCode b.live) := by
  unfold toReadableCtrlCode Debug.toReadableCtrlCode
  rw [if_pos h]
  have : append_readable_buffer = Debug.append_readable := by
    funext d c
    exact append_readable_buffer_eq d c
  rw [this]
  rfl

/-! ## Notification, state machine and flags -/

/-- A value that fits in `int` is unchanged by the conversion to `int`. -/
theorem to_int_in_range (v : Int) (h1 : -2147483648 ≤ v) (h2 : v < 2147483648) :
    to_int v = v := by
  unfold to_int
  norm_num
  omega

namespace Notification

variable {A σ : Type}

/-- With a receiver connected, `notify` and `operator()` call it once and return its code
converted to `int`. -/
theorem notify_connected (n : Notification A σ) (f : A → σ → return_code × σ) (args : A)
    (w : σ) :
    (n.connect f).notify args w = (to_int (f args w).1, (f args w).2) ∧
      (n.connect f).operator_call args w = (to_int (f args w).1, (f args w).2) :=
  ⟨rfl, rfl⟩

/-- With no receiver connected, `notify` and `operator()` return `FAILURE` and nothing
else changes. -/
theorem notify_unconnected (args : A) (w : σ) :
    (⟨none⟩ : Notification A σ).notify args w = (FAILURE, w) ∧
      (⟨none⟩ : Notification A σ).operator_call args w = (FAILURE, w) :=
  ⟨rfl, rfl⟩

/-- A return code that fits in `int` is returned exactly. -/
theorem notify_exact_in_int_range (n : Notification A σ) (f : A → σ → return_code × σ)
    (args : A) (w : σ) (h1 : -2147483648 ≤ (f args w).1) (h2 : (f args w).1 < 2147483648) :
    (n.connect f).notify args w = f args w := by
  rw [(notify_connected n f args w).1, to_int_in_range _ h1 h2]

end Notification

namespace State

/-- After `addNextState(id, p)` the lookup of `id` gives `p` when `p` is alive and nothing
when it is expired. -/
theorem next_addNextState (s : State) (id : event_id) (p : Option Nat) :
    (s.addNextState id p).next id = p := by
  cases p <;> simp [next, addNextState, List.lookup]

end State

namespace FlagRegister

theorem set_reset_value (r : FlagRegister) (s t : Nat) :
    (r.set_reset s t).value = (r.value ||| s) &&& mask t := rfl

theorem mask_testBit (t i : Nat) :
    (mask t).testBit i = (decide (i < 64) && !t.testBit i) := by
  unfold mask
  rw [Nat.testBit_xor, Nat.testBit_two_pow_sub_one, Nat.testBit_mod_two_pow]
  cases decide (i < 64) <;> simp

/-- When the two patterns share no bit, the order of the two steps does not matter. -/
theorem set_reset_disjoint (r : FlagRegister) (s t : Nat) (hs : s < 2 ^ 64)
    (hd : s &&& t = 0) :
    (r.set_reset s t).value = (r.value &&& mask t) ||| s := by
  rw [set_reset_value]
  apply Nat.eq_of_testBit_eq
  intro i
  have hi : s.testBit i = true → i < 64 := by
    intro h
    by_contra hn
    have : s < 2 ^ i := lt_of_lt_of_le hs (Nat.pow_le_pow_right (by decide) (by omega))
    rw [Nat.testBit_lt_two_pow this] at h
    exact Bool.false_ne_true h
  have hdi : (s.testBit i && t.testBit i) = false := by
    rw [← Nat.testBit_and, hd]
    simp
  simp only [Nat.testBit_and, Nat.testBit_or, mask_testBit]
  cases hsb : s.testBit i
  · simp
  · have := hi hsb
    rw [hsb] at hdi
    simp at hdi
    simp [this, hdi]

end FlagRegister

/-! ## The claims -/

namespace BufferBase

variable {α : Type}

/-- C1, refuted on the code: the cursor and size invariant does not survive a `read()`
that throws.  On the freshly constructed `Buffer(8)` the call `read()` signals
out-of-range and leaves `position() == 1` while `size() == 0`, because `m_read` is
incremented before the bound is checked. -/
theorem read_failure_breaks_invariant :
    ∃ b', (construct 8 : BufferBase Nat).read = some (b', Except.error Thrown.out_of_range) ∧
      run (construct 8 : BufferBase Nat) [Op.read] = some b' ∧
      b'.position = 1 ∧ b'.size = 0 ∧ b'.capacity = 8 ∧ ¬ Inv b' :=
  ⟨_, rfl, rfl, rfl, rfl, rfl, by decide⟩

/-- C2, refuted on the code: `push_back(10)` on the full buffer built from the list
`{0..9}` (size and capacity 10) leaves capacity 30, not 20: `resize()` passes
`m_capacity * 2` to `resize(s)`, which reserves `m_capacity + s`. -/
theorem push_back_full_triples_capacity :
    ∃ t b', construct_list (List.range 10) = some t ∧ t.size = 10 ∧ t.capacity = 10 ∧
      t.push_back 10 = some (b', OK) ∧ b'.capacity = 30 ∧ b'.capacity ≠ 2 * t.capacity :=
  ⟨_, _, rfl, rfl, rfl, rfl, rfl, by decide⟩

/-- C3: on an initialised buffer (one that satisfies the storage data model, with capacity
at least 1) every overload of `push_back` and
`operator+` returns (with `OK`), and the live contents become the old ones followed by
`v`: the size grows by one, slot `old size` holds `v`, and every slot below `old size` is
unchanged, with or without growth. -/
theorem push_back_appends_value [Inhabited α] (b : BufferBase α) (v : α)
    (hv : b.Valid) (hc : 1 ≤ b.capacity) :
    ∃ b', b.push_back v = some (b', OK) ∧ b.push_back_rv v = some (b', OK) ∧
      b.push_back_ptr v = some (b', OK) ∧ b.operator_plus v = some b' ∧
      b'.live = b.live ++ [v] ∧ b'.size = b.size + 1 ∧ b'.slots[b.size]? = some v ∧
      ∀ i, i < b.size → b'.slots[i]? = b.slots[i]? := by
  obtain ⟨b', e1, e2, e3, e4, vb, l, t, -, -⟩ := push_spec b v hv hc
  have hlen : b.live.length = b.m_tail := StorageBase.live_length _ hv
  refine ⟨b', e1, e2, e3, e4, l, t, ?_, ?_⟩
  · have h : b'.live[b.m_tail]? = some v := by
      rw [l, List.getElem?_append_right (by omega)]
      simp [hlen]
    rw [StorageBase.live_getElem? _ _ (by omega)] at h
    exact h
  · intro i hi
    have hi' : i < b.m_tail := hi
    have h : b'.live[i]? = b.live[i]? := by
      rw [l, List.getElem?_append_left (by omega)]
    rw [StorageBase.live_getElem? _ _ (by omega), StorageBase.live_getElem? _ _ hi'] at h
    exact h

theorem push_back_appends_value_witness :
    full_buffer.Valid ∧ 1 ≤ full_buffer.capacity ∧
    ∃ b', full_buffer.push_back 3 = some (b', OK) ∧
      full_buffer.push_back_rv 3 = some (b', OK) ∧
      full_buffer.push_back_ptr 3 = some (b', OK) ∧ full_buffer.operator_plus 3 = some b' ∧
      b'.live = full_buffer.live ++ [3] ∧ b'.size = full_buffer.size + 1 ∧
      b'.slots[full_buffer.size]? = some 3 ∧
      ∀ i, i < full_buffer.size → b'.slots[i]? = full_buffer.slots[i]? :=
  ⟨by decide, by decide, push_back_appends_value full_buffer 3 (by decide) (by decide)⟩

/-- C4: on a buffer that satisfies the storage data model `append(p, n)` and
`append(other)` return, and when `size + n` exceeds the
capacity `c` the new capacity is at least `c + n`, while for `size + n <= c` the capacity
is unchanged. -/
theorem append_capacity [Inhabited α] (b cr : BufferBase α) (ys : List α) (n : Nat)
    (hv : b.Valid) (hn : ys.length = n) (hcr : cr.Valid) :
    (∃ b', b.append ys n = some (b', OK) ∧
      (b.size + n > b.capacity → b.capacity + n ≤ b'.capacity) ∧
      (b.size + n ≤ b.capacity → b'.capacity = b.capacity)) ∧
    (∃ b', b.append_cr cr = some (b', OK) ∧
      (b.size + cr.size > b.capacity → b.capacity + cr.size ≤ b'.capacity) ∧
      (b.size + cr.size ≤ b.capacity → b'.capacity = b.capacity)) := by
  have key : ∀ (pv : List α) (m : Nat), m ≤ pv.length →
      ∃ b', b.append pv m = some (b', OK) ∧
        (b.size + m > b.capacity → b.capacity + m ≤ b'.capacity) ∧
        (b.size + m ≤ b.capacity → b'.capacity = b.capacity) := by
    intro pv m hm
    obtain ⟨b', e, -, -, -, -, c⟩ := append_spec b pv m hv hm
    refine ⟨b', e, ?_, ?_⟩
    · intro h
      have h' : b.m_tail + m > b.m_capacity := h
      show b.m_capacity + m ≤ b'.m_capacity
      rw [c, if_pos h']
    · intro h
      have h' : ¬ (b.m_tail + m > b.m_capacity) := by
        have : b.m_tail + m ≤ b.m_capacity := h
        omega
      show b'.m_capacity = b.m_capacity
      rw [c, if_neg h']
  refine ⟨key ys n (by omega), ?_⟩
  rw [append_cr_eq]
  exact key cr.slots cr.size (by have := hcr.1; have := hcr.2.2.1; show cr.m_tail ≤ _; omega)

theorem append_capacity_witness :
    half_buffer.Valid ∧ [4, 5, 6].length = 3 ∧ full_buffer.Valid ∧
    ((∃ b', half_buffer.append [4, 5, 6] 3 = some (b', OK) ∧
      (half_buffer.size + 3 > half_buffer.capacity → half_buffer.capacity + 3 ≤ b'.capacity) ∧
      (half_buffer.size + 3 ≤ half_buffer.capacity → b'.capacity = half_buffer.capacity)) ∧
    (∃ b', half_buffer.append_cr full_buffer = some (b', OK) ∧
      (half_buffer.size + full_buffer.size > half_buffer.capacity →
        half_buffer.capacity + full_buffer.size ≤ b'.capacity) ∧
      (half_buffer.size + full_buffer.size ≤ half_buffer.capacity →
        b'.capacity = half_buffer.capacity))) :=
  ⟨by decide, by decide, by decide,
    append_capacity half_buffer full_buffer [4, 5, 6] 3 (by decide) (by decide) (by decide)⟩

/-- C5: on a buffer that satisfies the storage data model, `append` of a source `ys` of
length `n` (pointer and length, or the live range of
another buffer) returns `OK` and leaves the live contents equal to the old ones followed
by `ys`, so the size is the old size plus `n`, also when the buffer has to grow. -/
theorem append_contents [Inhabited α] (b cr : BufferBase α) (ys : List α) (n : Nat)
    (hv : b.Valid) (hn : ys.length = n) (hcr : cr.Valid) :
    (∃ b', b.append ys n = some (b', OK) ∧ b'.live = b.live ++ ys ∧
      b'.size = b.size + n) ∧
    (∃ b', b.append_cr cr = some (b', OK) ∧ b'.live = b.live ++ cr.live ∧
      b'.size = b.size + cr.size) := by
  constructor
  · obtain ⟨b', e, -, l, t, -, -⟩ := append_spec b ys n hv (by omega)
    refine ⟨b', e, ?_, t⟩
    rw [l, List.take_of_length_le (by omega)]
  · rw [append_cr_eq]
    obtain ⟨b', e, -, l, t, -, -⟩ := append_spec b cr.slots cr.size hv
      (by have := hcr.1; have := hcr.2.2.1; show cr.m_tail ≤ _; omega)
    exact ⟨b', e, l, t⟩

theorem append_contents_witness :
    half_buffer.Valid ∧ [4, 5, 6].length = 3 ∧ full_buffer.Valid ∧
    ((∃ b', half_buffer.append [4, 5, 6] 3 = some (b', OK) ∧
      b'.live = half_buffer.live ++ [4, 5, 6] ∧ b'.size = half_buffer.size + 3) ∧
    (∃ b', half_buffer.append_cr full_buffer = some (b', OK) ∧
      b'.live = half_buffer.live ++ full_buffer.live ∧
      b'.size = half_buffer.size + full_buffer.size)) :=
  ⟨by decide, by decide, by decide,
    append_contents half_buffer full_buffer [4, 5, 6] 3 (by decide) (by decide) (by decide)⟩

/-- C6: whatever the contents and capacity of the buffer (a state of the storage data
model), `assign(ys, n)` and
`assign(other)` return `OK`, the size becomes `n`, the live contents equal the source
element for element, and the capacity is at least `n`. -/
theorem assign_contents [Inhabited α] (b cr : BufferBase α) (ys : List α) (n : Nat)
    (hv : b.Valid) (hn : ys.length = n) (hcr : cr.Valid) :
    (∃ b', b.assign ys n = some (b', OK) ∧ b'.size = n ∧ b'.live = ys ∧
      (∀ i, i < n → b'.slots[i]? = ys[i]?) ∧ n ≤ b'.capacity) ∧
    (∃ b', b.assign_cr cr = some (b', OK) ∧ b'.size = cr.size ∧ b'.live = cr.live ∧
      (∀ i, i < cr.size → b'.slots[i]? = cr.slots[i]?) ∧ cr.size ≤ b'.capacity) := by
  constructor
  · obtain ⟨b', e, -, l, t, -, c, -⟩ := assign_spec b ys n hv (by omega)
    have l' : b'.live = ys := by rw [l, List.take_of_length_le (by omega)]
    refine ⟨b', e, t, l', ?_, c⟩
    intro i hi
    rw [← StorageBase.live_getElem? _ _ (by omega), l']
  · rw [assign_cr_eq]
    obtain ⟨b', e, -, l, t, -, c, -⟩ := assign_spec b cr.slots cr.size hv
      (by have := hcr.1; have := hcr.2.2.1; show cr.m_tail ≤ _; omega)
    refine ⟨b', e, t, l, ?_, c⟩
    intro i hi
    have hi' : i < cr.m_tail := hi
    have t' : b'.m_tail = cr.m_tail := t
    rw [← StorageBase.live_getElem? _ _ (by omega), l]
    exact StorageBase.live_getElem? _ _ hi'

theorem assign_contents_witness :
    full_buffer.Valid ∧ [4, 5, 6].length = 3 ∧ half_buffer.Valid ∧
    ((∃ b', full_buffer.assign [4, 5, 6] 3 = some (b', OK) ∧ b'.size = 3 ∧
      b'.live = [4, 5, 6] ∧ (∀ i, i < 3 → b'.slots[i]? = [4, 5, 6][i]?) ∧
      3 ≤ b'.capacity) ∧
    (∃ b', full_buffer.assign_cr half_buffer = some (b', OK) ∧ b'.size = half_buffer.size ∧
      b'.live = half_buffer.live ∧
      (∀ i, i < half_buffer.size → b'.slots[i]? = half_buffer.slots[i]?) ∧
      half_buffer.size ≤ b'.capacity)) :=
  ⟨by decide, by decide, by decide,
    assign_contents full_buffer half_buffer [4, 5, 6] 3 (by decide) (by decide) (by decide)⟩

/-- C7: after `assign(pointer, n)` and after `assign(other)` the getter `position()` is 0,
whatever the read cursor was before. -/
theorem assign_resets_position [Inhabited α] (b cr : BufferBase α) (ys : List α) (n : Nat)
    (hv : b.Valid) (hn : ys.length = n) (hcr : cr.Valid) :
    (∃ b', b.assign ys n = some (b', OK) ∧ b'.position = 0) ∧
    (∃ b', b.assign_cr cr = some (b', OK) ∧ b'.position = 0) := by
  constructor
  · obtain ⟨b', e, -, -, -, p, -, -⟩ := assign_spec b ys n hv (by omega)
    exact ⟨b', e, p⟩
  · rw [assign_cr_eq]
    obtain ⟨b', e, -, -, -, p, -, -⟩ := assign_spec b cr.slots cr.size hv
      (by have := hcr.1; have := hcr.2.2.1; show cr.m_tail ≤ _; omega)
    exact ⟨b', e, p⟩

theorem assign_resets_position_witness :
    half_buffer.Valid ∧ [4, 5, 6].length = 3 ∧ full_buffer.Valid ∧ half_buffer.position = 1 ∧
    ((∃ b', half_buffer.assign [4, 5, 6] 3 = some (b', OK) ∧ b'.position = 0) ∧
    (∃ b', half_buffer.assign_cr full_buffer = some (b', OK) ∧ b'.position = 0)) :=
  ⟨by decide, by decide, by decide, by decide,
    assign_resets_position half_buffer full_buffer [4, 5, 6] 3
      (by decide) (by decide) (by decide)⟩

/-- C8: on a buffer that satisfies the storage data model, with the read cursor `p` below
the size, `read()` returns the element at index `p`
of the live contents and moves the cursor to `p + 1`; the storage part of the buffer
(size, capacity, contents) is unchanged. -/
theorem read_returns_element (b : BufferBase α) (hv : b.Valid) (hp : b.position < b.size) :
    ∃ v b', b.read = some (b', Except.ok v) ∧ b.live[b.position]? = some v ∧
      b'.position = b.position + 1 ∧ b'.size = b.size ∧ b'.capacity = b.capacity ∧
      b'.live = b.live ∧ b'.toStorageBase = b.toStorageBase := by
  obtain ⟨v, hl, hr⟩ := read_spec b hv hp
  exact ⟨v, _, hr, hl, rfl, rfl, rfl, rfl, rfl⟩

theorem read_returns_element_witness :
    hello_buffer.Valid ∧ hello_buffer.position < hello_buffer.size ∧
    ∃ v b', hello_buffer.read = some (b', Except.ok v) ∧
      hello_buffer.live[hello_buffer.position]? = some v ∧
      b'.position = hello_buffer.position + 1 ∧ b'.size = hello_buffer.size ∧
      b'.capacity = hello_buffer.capacity ∧ b'.live = hello_buffer.live ∧
      b'.toStorageBase = hello_buffer.toStorageBase :=
  ⟨by decide, by decide, read_returns_element hello_buffer (by decide) (by decide)⟩

/-- C9: `read()` signals an out-of-range failure exactly when the read cursor is already
at or beyond the size. -/
theorem read_throws_iff (b : BufferBase α) :
    (∃ b', b.read = some (b', Except.error Thrown.out_of_range)) ↔ b.size ≤ b.position := by
  unfold read position
  simp only [StorageBase.size]
  by_cases h : b.m_tail ≤ b.m_read
  · rw [if_pos (by show b.m_read + 1 > b.m_tail; omega)]
    simp [h]
  · rw [if_neg (by show ¬ (b.m_read + 1 > b.m_tail); omega)]
    simp [h]

/-- C10: on a buffer that satisfies the storage data model, for `first + length <= size`
the call `extract(first, length)` returns a success
result whose buffer has size `length` and whose element `i` is element `first + i` of the
source, for every `i < length`.  The method is const: it has no effect on the source. -/
theorem extract_in_range [Inhabited α] (b : BufferBase α) (first length : Nat)
    (hv : b.Valid) (h : first + length ≤ b.size) :
    ∃ r, b.extract first length = some (Result.value r) ∧
      (Result.value r).has_value = true ∧ r.size = length ∧
      r.live = (b.live.drop first).take length ∧
      ∀ i, i < length → r.slots[i]? = b.slots[first + i]? := by
  obtain ⟨r, e, -, s, -, l, g⟩ := extract_spec b first length hv h
  exact ⟨r, e, rfl, s, l, g⟩

theorem extract_in_range_witness :
    hello_buffer.Valid ∧ 6 + 5 ≤ hello_buffer.size ∧
    ∃ r, hello_buffer.extract 6 5 = some (Result.value r) ∧
      (Result.value r).has_value = true ∧ r.size = 5 ∧
      r.live = (hello_buffer.live.drop 6).take 5 ∧
      ∀ i, i < 5 → r.slots[i]? = hello_buffer.slots[6 + i]? :=
  ⟨by decide, by decide, extract_in_range hello_buffer 6 5 (by decide) (by decide)⟩

end BufferBase

/-! ### Claims C11 to C20 -/

namespace BufferBase
variable {α : Type}

/-- C11, refuted on the code: the sum `first + length` is formed in `size_type`.  For the
13 byte buffer of the tests and `extract(6, 2^64 - 3)` the sum exceeds the size, yet it
wraps to 3, the guard lets the call through, and `assign` reads `2^64 - 3` elements from
`m_head + 6`: no failure result is returned. -/
theorem extract_sum_wraps :
    6 < SIZE_MOD ∧ 2 ^ 64 - 3 < SIZE_MOD ∧ hello_buffer.size < 6 + (2 ^ 64 - 3) ∧
      (6 + (2 ^ 64 - 3)) % SIZE_MOD = 3 ∧
      hello_buffer.extract 6 (2 ^ 64 - 3) = none ∧
      hello_buffer.extract 6 (2 ^ 64 - 3) ≠ some (Result.error ⟨OUT_OF_RANGE⟩) := by
  have h : hello_buffer.extract 6 (2 ^ 64 - 3) = none := by
    have ha := assign_none (construct hello_buffer.m_capacity : BufferBase Nat)
      (List.drop 6 hello_buffer.slots) (2 ^ 64 - 3) (by decide) (by decide)
    unfold extract
    rw [if_neg (by decide)]
    dsimp only
    rw [ha]
    rfl
  exact ⟨by decide, by decide, by decide, by decide, h, by rw [h]; simp⟩

/-- C12, refuted on the code: for `substr(1, 2^64 - 1)` on the 13 byte buffer of the tests
(`first <= size`, `first + length > size`) the sum wraps to 0, the length is not clamped,
and `assign` reads `2^64 - 1` elements from `m_head + 1`: no buffer of size 12 is
returned. -/
theorem substr_sum_wraps :
    1 ≤ hello_buffer.size ∧ 2 ^ 64 - 1 < SIZE_MOD ∧ hello_buffer.size < 1 + (2 ^ 64 - 1) ∧
      (1 + (2 ^ 64 - 1)) % SIZE_MOD = 0 ∧
      hello_buffer.substr 1 (2 ^ 64 - 1) = none := by
  refine ⟨by decide, by decide, by decide, by decide, ?_⟩
  have ha := assign_none (construct hello_buffer.m_capacity : BufferBase Nat)
    (List.drop 1 hello_buffer.slots) (2 ^ 64 - 1) (by decide) (by decide)
  unfold substr
  rw [if_neg (by decide)]
  dsimp only
  rw [ha]
  rfl

/-- C13, refuted on the code: for `first > size` the clamp `size - first` is an unsigned
subtraction.  For `substr(14, 1)` on the 13 byte buffer of the tests the length becomes
`2^64 - 1` and `assign` reads that many elements from `m_head + 14`: no buffer of size at
most 13 is returned. -/
theorem substr_first_beyond_size :
    hello_buffer.size = 13 ∧ hello_buffer.size < (14 + 1) % SIZE_MOD ∧
      size_sub hello_buffer.size 14 = 2 ^ 64 - 1 ∧
      hello_buffer.substr 14 1 = none := by
  refine ⟨by decide, by decide, by decide, ?_⟩
  have hs : size_sub hello_buffer.size 14 = 2 ^ 64 - 1 := by decide
  have ha := assign_none (construct hello_buffer.m_capacity : BufferBase Nat)
    (List.drop 14 hello_buffer.slots) (2 ^ 64 - 1) (by decide) (by decide)
  unfold substr
  rw [if_pos (by decide), hs]
  dsimp only
  rw [ha]
  rfl

/-- C14, as stated, fails on the buffer of the test case (capacity 8): index 8 is not
above the capacity, so nothing is thrown, but the block has no slot at index 8. -/
theorem index_at_capacity_has_no_slot :
    ¬ ∀ i : Nat,
      ((basic_buffer.operator_index i = some (Except.error Thrown.out_of_range) ∧
        basic_buffer.operator_index_const i = some (Except.error Thrown.out_of_range) ∧
        basic_buffer.at_pos i = some (Except.error Thrown.out_of_range)) ↔
          i > basic_buffer.capacity) ∧
      (¬ i > basic_buffer.capacity → ∃ v, basic_buffer.slots[i]? = some v ∧
        basic_buffer.operator_index i = some (Except.ok v) ∧
        basic_buffer.operator_index_const i = some (Except.ok v) ∧
        basic_buffer.at_pos i = some (Except.ok v)) := by
  intro h
  obtain ⟨v, hv, -⟩ := (h 8).2 (by decide)
  have : basic_buffer.slots[8]? = none := by decide
  rw [this] at hv
  exact Option.noConfusion hv

/-- C14, amended: on a buffer that satisfies the storage data model, `operator[]`
(mutable and const) and `at(i)` signal out-of-range for every `i > capacity()`; for every
`j < capacity()` they signal nothing and return the slot at index `j`, and a value
assigned through `x[j]` is what `x[j]` returns afterwards. -/
theorem index_access (b : BufferBase α) (i j : Nat) (x : α) (hv : b.Valid)
    (hi : i > b.capacity) (hj : j < b.capacity) :
    (b.operator_index i = some (Except.error Thrown.out_of_range) ∧
      b.operator_index_const i = some (Except.error Thrown.out_of_range) ∧
      b.at_pos i = some (Except.error Thrown.out_of_range) ∧
      b.operator_index_store i x = some (Except.error Thrown.out_of_range)) ∧
    (∃ v, b.slots[j]? = some v ∧ b.operator_index j = some (Except.ok v) ∧
      b.operator_index_const j = some (Except.ok v) ∧ b.at_pos j = some (Except.ok v)) ∧
    (∃ b', b.operator_index_store j x = some (Except.ok b') ∧
      b'.operator_index j = some (Except.ok x) ∧ b'.size = b.size ∧
      b'.capacity = b.capacity ∧ ∀ k, k ≠ j → b'.slots[k]? = b.slots[k]?) := by
  obtain ⟨h1, h2, h3, h4⟩ := hv
  have hi' : b.capacity < i := hi
  have hc : j < b.m_capacity := hj
  have hl : j < b.slots.length := by omega
  have hn : ¬ b.capacity < j := by show ¬ b.m_capacity < j; omega
  refine ⟨?_, ?_, ?_⟩
  · simp [operator_index, operator_index_const, at_pos, operator_index_store, hi']
  · refine ⟨b.slots[j], List.getElem?_eq_getElem hl, ?_, ?_, ?_⟩ <;>
      simp [operator_index, operator_index_const, at_pos, hn, List.getElem?_eq_getElem hl]
  · refine ⟨{ b with slots := b.slots.set j x }, ?_, ?_, rfl, rfl, ?_⟩
    · simp [operator_index_store, hn, store, hl]
    · have hn' : ¬ StorageBase.capacity
          ({ b with slots := b.slots.set j x } : BufferBase α).toStorageBase < j := hn
      simp [operator_index, hn', hl]
    · intro k hk
      exact List.getElem?_set_ne (Ne.symm hk)

theorem index_access_witness :
    basic_buffer.Valid ∧ 9 > basic_buffer.capacity ∧ 0 < basic_buffer.capacity ∧
    (basic_buffer.operator_index 9 = some (Except.error Thrown.out_of_range) ∧
      basic_buffer.operator_index_const 9 = some (Except.error Thrown.out_of_range) ∧
      basic_buffer.at_pos 9 = some (Except.error Thrown.out_of_range) ∧
      basic_buffer.operator_index_store 9 0x7f = some (Except.error Thrown.out_of_range)) ∧
    (∃ v, basic_buffer.slots[0]? = some v ∧
      basic_buffer.operator_index 0 = some (Except.ok v) ∧
      basic_buffer.operator_index_const 0 = some (Except.ok v) ∧
      basic_buffer.at_pos 0 = some (Except.ok v)) ∧
    (∃ b', basic_buffer.operator_index_store 0 0x7f = some (Except.ok b') ∧
      b'.operator_index 0 = some (Except.ok 0x7f) ∧ b'.size = basic_buffer.size ∧
      b'.capacity = basic_buffer.capacity ∧
      ∀ k, k ≠ 0 → b'.slots[k]? = basic_buffer.slots[k]?) :=
  ⟨by decide, by decide, by decide,
    index_access basic_buffer 9 0 0x7f (by decide) (by decide) (by decide)⟩

/-- C15: `put_back()` with the read cursor `p > 0` sets the cursor to `p - 1` and returns
`OK`; with `p == 0` it returns `UNDER_FLOW` and the cursor stays 0; the storage part of
the buffer (size, capacity, contents) is unchanged in both cases. -/
theorem put_back_spec (b : BufferBase α) :
    (0 < b.position → b.put_back.2 = OK ∧ b.put_back.1.position = b.position - 1) ∧
    (b.position = 0 → b.put_back.2 = UNDER_FLOW ∧ b.put_back.1.position = 0) ∧
    b.put_back.1.size = b.size ∧ b.put_back.1.capacity = b.capacity ∧
    b.put_back.1.live = b.live ∧ b.put_back.1.toStorageBase = b.toStorageBase := by
  unfold put_back position
  by_cases h : 0 < b.m_read
  · simp [h]
    omega
  · have h0 : b.m_read = 0 := by omega
    simp [h0]

/-- C16: `position(newPos)` returns `OUT_OF_RANGE` exactly when `newPos > size`, and then
the buffer (the read cursor included) is unchanged; otherwise it returns `OK`, the cursor
is `newPos` afterwards and the storage part is unchanged. -/
theorem position_set_spec (b : BufferBase α) (newPos : Nat) :
    ((b.position_set newPos).2 = OUT_OF_RANGE ↔ newPos > b.size) ∧
    (((b.position_set newPos).2 = OUT_OF_RANGE ∧
      (b.position_set newPos).1.position = b.position) ↔ newPos > b.size) ∧
    (newPos > b.size → (b.position_set newPos).1 = b) ∧
    (¬ newPos > b.size → (b.position_set newPos).2 = OK ∧
      (b.position_set newPos).1.position = newPos ∧
      (b.position_set newPos).1.toStorageBase = b.toStorageBase) := by
  unfold position_set position
  by_cases h : newPos > b.size
  · simp [h]
  · simp [h, OK, OUT_OF_RANGE]

/-- C17: `clear()` leaves size 0 and `position()` 0, while the capacity and the
allocation (the block, `m_end` and `m_init`) are unchanged. -/
theorem clear_spec (b : BufferBase α) :
    b.clear.size = 0 ∧ b.clear.position = 0 ∧ b.clear.capacity = b.capacity ∧
    b.clear.slots = b.slots ∧ b.clear.m_end = b.m_end ∧ b.clear.m_init = b.m_init :=
  ⟨rfl, rfl, rfl, rfl, rfl, rfl⟩

end BufferBase

namespace StorageBase

/-- C18, refuted on the code: copy assignment and `copy_from` add to `m_tail` instead of
setting it.  After `a = b` with `a = {1, 2, 3}` and `b = {4, 5, 6}` the tail of `a` is 6
slots past the head while `m_end` is 3 slots past it; `copy_from(p, 1)` on `{1, 2, 3}`
(`l <= capacity`) leaves the tail at 4. -/
theorem copy_assign_breaks_pointer_order :
    construct_list [1, 2, 3] = some list_123 ∧ construct_list [4, 5, 6] = some list_456 ∧
      PtrInv list_123 ∧ PtrInv list_456 ∧
      (∃ a', copy_assign list_123 list_456 = some a' ∧ a'.m_tail = 6 ∧ a'.m_end = 3 ∧
        ¬ PtrInv a') ∧
      (∃ a', copy_from list_123 [7] 1 = some a' ∧ a'.m_tail = 4 ∧ a'.m_end = 3 ∧
        ¬ PtrInv a') :=
  ⟨rfl, rfl, by decide, by decide, ⟨_, rfl, rfl, rfl, by decide⟩,
    ⟨_, rfl, rfl, rfl, by decide⟩⟩

/-- C19, refuted on the code: move assignment copies the three pointers but not
`m_capacity`, and does not reset `m_capacity` of the source.  After `a = std::move(b)`
with `a(10)` and `b(5)`, `a.capacity()` is 10 over a block of 5 slots, and
`b.capacity()` is 5 with null pointers. -/
theorem move_assign_keeps_stale_capacity :
    ∃ a' b', move_assign (construct 10 : StorageBase Nat) (construct 5) = (a', b') ∧
      a'.capacity = 10 ∧ a'.m_end = 5 ∧ a'.slots.length = 5 ∧ a'.capacity ≠ a'.m_end ∧
      b'.capacity = 5 ∧ b'.m_end = 0 ∧ b'.slots.length = 0 ∧ b'.capacity ≠ b'.m_end :=
  ⟨_, _, rfl, rfl, rfl, rfl, by decide, rfl, rfl, rfl, by decide⟩

/-- C20, refuted on the code: copy assignment into a storage that holds elements adds the
sizes.  After `a = b` with `a = {1, 2, 3}` and `b = {4, 5, 6}` (equal capacities),
`a.size()` is 6, not 3, and the range `[m_head, m_tail)` leaves the block. -/
theorem copy_assign_adds_sizes :
    list_456.m_capacity ≤ list_123.m_capacity ∧
      ∃ a', copy_assign list_123 list_456 = some a' ∧ a'.size = 6 ∧ list_456.size = 3 ∧
        a'.size ≠ list_456.size ∧ a'.slots.length = 3 :=
  ⟨by decide, _, rfl, rfl, rfl, by decide, rfl⟩

end StorageBase

/-! ### Claims C21 to C30 -/

namespace StorageBase
variable {α : Type}

/-- C21: when `this.capacity < other.capacity`, copy assignment and move assignment do
nothing: `this` and `other` (size, capacity, contents, initialised flag, every member) are
what they were. -/
theorem assign_with_less_capacity (st rhs : StorageBase α)
    (h : st.capacity < rhs.capacity) :
    copy_assign st rhs = some st ∧ move_assign st rhs = (st, rhs) ∧
      (move_assign st rhs).1.size = st.size ∧
      (move_assign st rhs).1.capacity = st.capacity ∧
      (move_assign st rhs).1.live = st.live ∧
      (move_assign st rhs).1.is_inited = st.is_inited ∧
      (move_assign st rhs).2.size = rhs.size ∧
      (move_assign st rhs).2.capacity = rhs.capacity ∧
      (move_assign st rhs).2.live = rhs.live ∧
      (move_assign st rhs).2.is_inited = rhs.is_inited := by
  have h' : ¬ st.m_capacity ≥ rhs.m_capacity := by
    have : st.m_capacity < rhs.m_capacity := h
    omega
  have e : move_assign st rhs = (st, rhs) := by
    unfold move_assign
    rw [if_neg h']
  refine ⟨?_, e, ?_⟩
  · unfold copy_assign
    rw [if_neg h']
  · rw [e]
    exact ⟨rfl, rfl, rfl, rfl, rfl, rfl, rfl, rfl⟩

theorem assign_with_less_capacity_witness :
    list_123.capacity < half_storage.capacity ∧
    (copy_assign list_123 half_storage = some list_123 ∧
      move_assign list_123 half_storage = (list_123, half_storage) ∧
      (move_assign list_123 half_storage).1.size = list_123.size ∧
      (move_assign list_123 half_storage).1.capacity = list_123.capacity ∧
      (move_assign list_123 half_storage).1.live = list_123.live ∧
      (move_assign list_123 half_storage).1.is_inited = list_123.is_inited ∧
      (move_assign list_123 half_storage).2.size = half_storage.size ∧
      (move_assign list_123 half_storage).2.capacity = half_storage.capacity ∧
      (move_assign list_123 half_storage).2.live = half_storage.live ∧
      (move_assign list_123 half_storage).2.is_inited = half_storage.is_inited) :=
  ⟨by decide, assign_with_less_capacity list_123 half_storage (by decide)⟩

/-- C22: for initialised storages with `this.capacity >= other.capacity`, after the move
assignment `this` has the size and the live contents that `other` had and is initialised,
and `other` converts to false (and has size 0). -/
theorem move_assign_takes_contents (st rhs : StorageBase α)
    (hs : st.is_inited = true) (hr : rhs.is_inited = true)
    (hc : st.capacity ≥ rhs.capacity) :
    (move_assign st rhs).1.size = rhs.size ∧ (move_assign st rhs).1.live = rhs.live ∧
      (move_assign st rhs).1.slots = rhs.slots ∧
      (move_assign st rhs).1.is_inited = true ∧
      (move_assign st rhs).2.is_inited = false ∧ (move_assign st rhs).2.size = 0 := by
  have hc' : st.m_capacity ≥ rhs.m_capacity := hc
  have _ := hs
  have _ := hr
  unfold move_assign
  rw [if_pos hc']
  exact ⟨rfl, rfl, rfl, rfl, rfl, rfl⟩

set_option maxRecDepth 8000 in
theorem move_assign_takes_contents_witness :
    (construct 64 : StorageBase Nat).is_inited = true ∧ beef_storage.is_inited = true ∧
    (construct 64 : StorageBase Nat).capacity ≥ beef_storage.capacity ∧
    (construct 64 : StorageBase Nat).size = 0 ∧ beef_storage.size = 64 ∧
    beef_storage.slots[0]? = some 0xdeadbeef ∧
    ((move_assign (construct 64) beef_storage).1.size = beef_storage.size ∧
      (move_assign (construct 64) beef_storage).1.live = beef_storage.live ∧
      (move_assign (construct 64) beef_storage).1.slots = beef_storage.slots ∧
      (move_assign (construct 64) beef_storage).1.is_inited = true ∧
      (move_assign (construct 64) beef_storage).2.is_inited = false ∧
      (move_assign (construct 64) beef_storage).2.size = 0) :=
  ⟨by decide, by decide, by decide, by decide, by decide, by decide,
    move_assign_takes_contents (construct 64) beef_storage (by decide) (by decide)
      (by decide)⟩

/-- C23: for a storage whose live range lies inside its block and whose size does not
exceed `capacity()`, the copy constructed storage has the same capacity, the same size
and the same live contents.  The argument is a const reference: it is not written. -/
theorem copy_construct_copies [Inhabited α] (other : StorageBase α)
    (h1 : other.size ≤ other.slots.length) (h2 : other.size ≤ other.capacity) :
    ∃ t, copy_construct other = some t ∧ t.capacity = other.capacity ∧
      t.size = other.size ∧ t.live = other.live := by
  obtain ⟨t, e, -, c, s, l⟩ := copy_construct_general other h1 h2
  exact ⟨t, e, c, s, l⟩

theorem copy_construct_copies_witness :
    half_storage.size ≤ half_storage.slots.length ∧ half_storage.size ≤ half_storage.capacity ∧
    ∃ t, copy_construct half_storage = some t ∧ t.capacity = half_storage.capacity ∧
      t.size = half_storage.size ∧ t.live = half_storage.live :=
  ⟨by decide, by decide, copy_construct_copies half_storage (by decide) (by decide)⟩

/-- C24: the storage move constructed from an initialised storage has the capacity, the
size and the live contents that the source had, and is initialised. -/
theorem move_construct_takes_all (other : StorageBase α) (hi : other.is_inited = true) :
    (move_construct other).1.capacity = other.capacity ∧
      (move_construct other).1.size = other.size ∧
      (move_construct other).1.live = other.live ∧
      (move_construct other).1.is_inited = true ∧
      (move_construct other).1 = other :=
  ⟨rfl, rfl, rfl, hi, rfl⟩

theorem move_construct_takes_all_witness :
    half_storage.is_inited = true ∧
    ((move_construct half_storage).1.capacity = half_storage.capacity ∧
      (move_construct half_storage).1.size = half_storage.size ∧
      (move_construct half_storage).1.live = half_storage.live ∧
      (move_construct half_storage).1.is_inited = true ∧
      (move_construct half_storage).1 = half_storage) :=
  ⟨by decide, move_construct_takes_all half_storage (by decide)⟩

/-- C25, refuted on the code: the move constructor sets the three pointers of the source
to null and `m_init` to false, but leaves `m_capacity`.  After `y(std::move(x))` with
`x = {1, 2, 3}`, `x` converts to false and has size 0, yet `x.capacity()` is 3. -/
theorem moved_from_keeps_capacity :
    construct_list [1, 2, 3] = some list_123 ∧
      (move_construct list_123).2.is_inited = false ∧
      (move_construct list_123).2.size = 0 ∧
      (move_construct list_123).2.capacity = 3 ∧
      (move_construct list_123).2.capacity ≠ 0 :=
  ⟨rfl, rfl, rfl, rfl, by decide⟩

/-- C26: the storage and the buffer constructed with a requested capacity `s` have
capacity `s` and size 0 and are initialised exactly when `s > 0`; the default
constructors give capacity 64. -/
theorem construct_capacity [Inhabited α] (s : Nat) :
    (construct s : StorageBase α).capacity = s ∧ (construct s : StorageBase α).size = 0 ∧
      ((construct s : StorageBase α).is_inited = true ↔ s > 0) ∧
      (BufferBase.construct s : BufferBase α).capacity = s ∧
      (BufferBase.construct s : BufferBase α).size = 0 ∧
      ((BufferBase.construct s : BufferBase α).is_inited = true ↔ s > 0) ∧
      (BufferBase.construct s : BufferBase α).position = 0 ∧
      (construct_default : StorageBase α).capacity = 64 ∧
      (BufferBase.construct_default : BufferBase α).capacity = 64 := by
  have key : ∀ n : Nat, (construct n : StorageBase α).capacity = n ∧
      (construct n : StorageBase α).size = 0 ∧
      ((construct n : StorageBase α).is_inited = true ↔ n > 0) := by
    intro n
    unfold construct
    by_cases hn : n = 0
    · subst hn
      simp [reserve_zero, fresh, capacity, size, is_inited]
    · simp [reserve_pos _ _ hn, capacity, size, is_inited]
      omega
  exact ⟨(key s).1, (key s).2.1, (key s).2.2, (key s).1, (key s).2.1, (key s).2.2, rfl,
    (key 64).1, (key 64).1⟩

/-- C27: the storage constructed with capacity `s` and fill value `v` has size and
capacity `s`, and each of its `s` elements is `v`. -/
theorem construct_fill_contents [Inhabited α] (s : Nat) (v : α) :
    ∃ t, construct_fill s v = some t ∧ t.size = s ∧ t.capacity = s ∧
      t.live = List.replicate s v ∧ ∀ i, i < s → t.slots[i]? = some v := by
  refine ⟨_, construct_fill_spec s v, rfl, rfl, by simp [live], ?_⟩
  intro i hi
  simp [hi]

/-- C28: the storage constructed from an initializer sequence `xs` has capacity and size
equal to the length of `xs`, and its live contents are `xs` in order. -/
theorem construct_list_contents [Inhabited α] (xs : List α) :
    ∃ t, construct_list xs = some t ∧ t.capacity = xs.length ∧ t.size = xs.length ∧
      t.live = xs ∧ ∀ i, i < xs.length → t.slots[i]? = xs[i]? :=
  ⟨_, construct_list_spec xs, rfl, rfl, by simp [live], fun _ _ => rfl⟩

/-- C29, as stated, fails: `resize(8)` on the initialised empty storage of capacity 4
(`8 >= size`) leaves capacity 12, not 8. -/
theorem resize_is_not_absolute :
    (construct 4 : StorageBase Nat).is_inited = true ∧
      8 ≥ (construct 4 : StorageBase Nat).size ∧
      ∃ st', resize (construct 4 : StorageBase Nat) 8 = some st' ∧ st'.capacity = 12 ∧
        st'.capacity ≠ 8 :=
  ⟨rfl, by decide, _, rfl, rfl, by decide⟩

/-- C29, amended: on every initialised storage (one that satisfies the data model)
`resize(s)` returns and the capacity afterwards is exactly the old capacity plus `s`;
size and live contents are kept. -/
theorem resize_adds_capacity [Inhabited α] (st : StorageBase α) (s : Nat)
    (hv : st.Valid) (hi : st.is_inited = true) :
    ∃ st', resize st s = some st' ∧ st'.capacity = st.capacity + s ∧
      st'.size = st.size ∧ st'.live = st.live ∧ st'.is_inited = true := by
  obtain ⟨st', e, -, c, t, l⟩ := resize_spec st s hv
  exact ⟨st', e, c, t, l, resize_inited st st' s hi e⟩

theorem resize_adds_capacity_witness :
    half_storage.Valid ∧ half_storage.is_inited = true ∧
    ∃ st', resize half_storage 8 = some st' ∧ st'.capacity = half_storage.capacity + 8 ∧
      st'.size = half_storage.size ∧ st'.live = half_storage.live ∧
      st'.is_inited = true :=
  ⟨by decide, by decide, resize_adds_capacity half_storage 8 (by decide) (by decide)⟩

/-- C30, refuted on the code: `shrink_to_fit()` calls `reserve(size())` after
`destroy_all()` has set `m_tail = m_head`, so nothing is reserved.  On the initialised
storage of capacity 4 holding 1, 2 the copy back writes into the released block; on the
initialised empty storage of capacity 4 the block is released and not replaced. -/
theorem shrink_to_fit_releases_block :
    half_storage.is_inited = true ∧ half_storage.capacity > half_storage.size ∧
      half_storage.size > 0 ∧ shrink_to_fit half_storage = none ∧
      (construct 4 : StorageBase Nat).is_inited = true ∧
      (construct 4 : StorageBase Nat).size = 0 ∧
      (construct 4 : StorageBase Nat).slots.length = 4 ∧
      ∃ st', shrink_to_fit (construct 4 : StorageBase Nat) = some st' ∧ st'.slots = [] ∧
        st'.capacity = 4 ∧ st'.is_inited = true ∧ st' ≠ construct 4 :=
  ⟨rfl, by decide, by decide, by decide, rfl, rfl, rfl, _, rfl, rfl, rfl, rfl, by decide⟩

end StorageBase

/-! ### Claims C31 to C40 -/

/-- C31: for every string `s` (a list of bytes of any length and content) `from_string(s)`
returns a buffer with size and capacity both equal to the length of `s`, and `to_string`
of that buffer is `s` again. -/
theorem string_round_trip (s : List Nat) :
    ∃ b, from_string s = some b ∧ to_string b = some s ∧ b.size = s.length ∧
      b.capacity = s.length := by
  refine ⟨_, from_string_spec s, ?_, rfl, rfl⟩
  unfold to_string
  by_cases hl : s.length = 0
  · have : s = [] := List.length_eq_zero.mp hl
    subst this
    rfl
  · simp [StorageBase.size, hl]

/-- C32: a `Result` built from a value `v` by copy, by move or from constructor arguments
has `has_value() == true` and holds that value; a `Result` built from `error_type(c)` has
`has_value() == false` and `error() == c`. -/
theorem result_holds_what_it_was_built_from {τ A : Type} (v : τ) (ctor : A → τ) (args : A)
    (c : return_code) :
    (Result.construct_copy v).has_value = true ∧
      (Result.construct_copy v).get_value = some v ∧
      (Result.construct_move v).has_value = true ∧
      (Result.construct_move v).get_value = some v ∧
      (Result.construct_args ctor args).has_value = true ∧
      (Result.construct_args ctor args).get_value = some (ctor args) ∧
      (Result.construct_error ⟨c⟩ : Result τ).has_value = false ∧
      (Result.construct_error ⟨c⟩ : Result τ).get_error = some c ∧
      (Result.construct_error ⟨c⟩ : Result τ).get_value = none :=
  ⟨rfl, rfl, rfl, rfl, rfl, rfl, rfl, rfl, rfl⟩

/-- C33, refuted on the code: `notify` keeps the receiver's code in a local `int`, so a
64-bit `return_code` outside the range of `int` is not returned exactly.  With the
receiver of the test (it returns its argument) `notify(4294967301)` and `operator()`
return 5, and `notify(2147483648)` returns -2147483648; `notify(1000)` returns 1000. -/
theorem notify_truncates_return_code :
    (function_i 4294967301 ()).1 = 4294967301 ∧
      (-9223372036854775808 : Int) ≤ 4294967301 ∧ (4294967301 : Int) < 9223372036854775808 ∧
      (((⟨none⟩ : Notification return_code Unit).connect function_i).notify
        4294967301 ()).1 = 5 ∧
      (((⟨none⟩ : Notification return_code Unit).connect function_i).operator_call
        4294967301 ()).1 = 5 ∧
      (((⟨none⟩ : Notification return_code Unit).connect function_i).notify
        2147483648 ()).1 = -2147483648 ∧
      (((⟨none⟩ : Notification return_code Unit).connect function_i).notify
        1000 ()).1 = 1000 := by
  decide

namespace BufferBase

/-- C34, refuted on the code: on the buffer holding `Hello world!!` with the cursor at the
end (position 13), `read()` signals out-of-range and leaves position 14; `put_back()` then
gives position 13 and the next `read()` signals out-of-range again instead of returning
the last element `!`. -/
theorem failed_read_advances_position :
    ∃ b0 b1 b2 b3, hello_buffer.position_set 13 = (b0, OK) ∧ b0.position = 13 ∧
      b0.size = 13 ∧ b0.slots[12]? = some 33 ∧
      b0.read = some (b1, Except.error Thrown.out_of_range) ∧ b1.position = 14 ∧
      b1.position ≠ b0.position ∧
      b1.put_back = (b2, OK) ∧ b2.position = 13 ∧
      b2.read = some (b3, Except.error Thrown.out_of_range) :=
  ⟨_, _, _, _, rfl, rfl, rfl, rfl, rfl, rfl, by decide, rfl, rfl, rfl⟩

/-- C35, refuted on the code: the buffer of capacity 8 holding the bytes 0 to 7 has slots
0 to 7, and the guard `capacity() < i` of `operator[]` and `at` does not signal
out-of-range for the index 8, which is not below the capacity and has no slot. -/
theorem index_equal_to_capacity_is_accepted :
    basic_buffer.capacity = 8 ∧ basic_buffer.slots.length = 8 ∧ ¬ (8 < basic_buffer.capacity) ∧
      basic_buffer.operator_index 8 ≠ some (Except.error Thrown.out_of_range) ∧
      basic_buffer.operator_index_const 8 ≠ some (Except.error Thrown.out_of_range) ∧
      basic_buffer.at_pos 8 ≠ some (Except.error Thrown.out_of_range) ∧
      basic_buffer.operator_index 8 = none ∧ basic_buffer.at_pos 8 = none ∧
      basic_buffer.slots[8]? = none ∧
      basic_buffer.operator_index 9 = some (Except.error Thrown.out_of_range) := by
  have e1 : basic_buffer.operator_index 8 = none := rfl
  have e2 : basic_buffer.operator_index_const 8 = none := rfl
  have e3 : basic_buffer.at_pos 8 = none := rfl
  refine ⟨rfl, rfl, by decide, ?_, ?_, ?_, e1, e3, rfl, rfl⟩
  · rw [e1]; simp
  · rw [e2]; simp
  · rw [e3]; simp

/-- C36, refuted on the code: the buffer constructed with capacity 0 is full and not
initialised; the growth step `resize()` asks for `0 * 2` more slots, `reserve(0)` does
nothing, so the capacity is not above the size when the element is written and every
form of `push_back` writes at the tail of an empty block. -/
theorem push_back_on_capacity_zero (v : Nat) :
    (construct 0 : BufferBase Nat).full = true ∧
      (construct 0 : BufferBase Nat).is_inited = false ∧
      (construct 0 : BufferBase Nat).Valid ∧
      (∃ st, (construct 0 : BufferBase Nat).toStorageBase.resize_noarg = some st ∧
        st.capacity = 0 ∧ st.size = 0 ∧ st.slots = [] ∧ ¬ (st.capacity > st.size)) ∧
      (construct 0 : BufferBase Nat).push_back v = none ∧
      (construct 0 : BufferBase Nat).push_back_rv v = none ∧
      (construct 0 : BufferBase Nat).push_back_ptr v = none ∧
      (construct 0 : BufferBase Nat).operator_plus v = none :=
  ⟨rfl, rfl, by decide, ⟨_, rfl, rfl, rfl, rfl, by decide⟩, rfl, rfl, rfl, rfl⟩

end BufferBase

namespace StorageBase

variable {α : Type}

/-- C37: on every initialised storage, `resize(s)` and `resize()` return, and afterwards
the size is the old size, every slot below the size holds the element it held before, the
live contents are the same list, and the storage is still initialised. -/
theorem resize_keeps_size_and_contents [Inhabited α] (st : StorageBase α) (s : Nat)
    (hv : st.Valid) (hi : st.is_inited = true) :
    (∃ st', resize st s = some st' ∧ st'.size = st.size ∧ st'.live = st.live ∧
        (∀ i, i < st.size → st'.slots[i]? = st.slots[i]?) ∧ st'.is_inited = true) ∧
      (∃ st', resize_noarg st = some st' ∧ st'.size = st.size ∧ st'.live = st.live ∧
        (∀ i, i < st.size → st'.slots[i]? = st.slots[i]?) ∧ st'.is_inited = true) := by
  have key : ∀ n, ∃ st', resize st n = some st' ∧ st'.size = st.size ∧ st'.live = st.live ∧
      (∀ i, i < st.size → st'.slots[i]? = st.slots[i]?) ∧ st'.is_inited = true := by
    intro n
    obtain ⟨st', e, -, -, t, l⟩ := resize_spec st n hv
    refine ⟨st', e, t, l, ?_, resize_inited st st' n hi e⟩
    intro i h
    have h' : i < st.m_tail := h
    rw [← live_getElem? st' i (by omega), ← live_getElem? st i h', l]
  exact ⟨key s, key (st.m_capacity * 2)⟩

theorem resize_keeps_size_and_contents_witness :
    list_123.Valid ∧ list_123.is_inited = true ∧
    (∃ st', resize list_123 5 = some st' ∧ st'.size = list_123.size ∧
        st'.live = list_123.live ∧
        (∀ i, i < list_123.size → st'.slots[i]? = list_123.slots[i]?) ∧
        st'.is_inited = true) ∧
      (∃ st', resize_noarg list_123 = some st' ∧ st'.size = list_123.size ∧
        st'.live = list_123.live ∧
        (∀ i, i < list_123.size → st'.slots[i]? = list_123.slots[i]?) ∧
        st'.is_inited = true) :=
  ⟨by decide, by decide, resize_keeps_size_and_contents list_123 5 (by decide) (by decide)⟩

end StorageBase

/-- C38: with no current state `dispatch(e)` does nothing.  With current state `c`: for
`e < 0` the state stays `c` and no hook runs; for `e == 0` the state stays `c` and only
`doActivity` of `c` runs; for `e > 0` the hooks are `exit` of `c`, then `entry` and
`doActivity` of the resulting state, which is the state registered on `c` for `e` when
there is one and it is alive, and `c` when nothing is registered or the target has
expired.  A registration made with `addNextState` is what the lookup finds. -/
theorem dispatch_transitions (heap : Nat → State) (c : Nat) (e : event_id) :
    dispatch heap none e = (none, []) ∧
      (e < 0 → dispatch heap (some c) e = (some c, [])) ∧
      (e = 0 → dispatch heap (some c) e = (some c, [Hook.doActivity c])) ∧
      (e > 0 → ∀ n, (heap c).m_states.lookup e = some (some n) →
        dispatch heap (some c) e = (some n, [Hook.exit c, Hook.entry n, Hook.doActivity n])) ∧
      (e > 0 → ((heap c).m_states.lookup e = none ∨ (heap c).m_states.lookup e = some none) →
        dispatch heap (some c) e = (some c, [Hook.exit c, Hook.entry c, Hook.doActivity c])) ∧
      (∀ (s : State) (p : Option Nat), (s.addNextState e p).m_states.lookup e = some p) := by
  refine ⟨rfl, ?_, ?_, ?_, ?_, ?_⟩
  · intro h
    simp [dispatch, h]
  · intro h
    subst h
    simp [dispatch]
  · intro h n hn
    have h1 : ¬ e < 0 := not_lt.mpr (le_of_lt h)
    have h2 : ¬ e = 0 := ne_of_gt h
    simp [dispatch, h1, h2, State.next, hn]
  · intro h hn
    have h1 : ¬ e < 0 := not_lt.mpr (le_of_lt h)
    have h2 : ¬ e = 0 := ne_of_gt h
    rcases hn with hn | hn <;> simp [dispatch, h1, h2, State.next, hn]
  · intro s p
    simp [State.addNextState, List.lookup]

/-- C39, refuted on the code: `set_reset` sets first and resets afterwards, although its
comment says the set comes after the reset.  On the register 0, `set_reset(1, 1)` leaves 0
and bit 1 is not set, while `(0 & ~1) | 1` is 1. -/
theorem set_reset_clears_overlapping_bits :
    ((⟨0⟩ : FlagRegister).set_reset 1 1).value = 0 ∧
      ((⟨0⟩ : FlagRegister).set_reset 1 1).is_set 1 = false ∧
      (((⟨0⟩ : FlagRegister).value &&& FlagRegister.mask 1) ||| 1) = 1 ∧
      (((⟨0⟩ : FlagRegister).reset 1).set 1).value = 1 := by
  decide

set_option maxRecDepth 100000 in
/-- C40, refuted on the code: the table entry for the byte 0x10 is `[DEL]`, the token of
the byte 0x7f, and not the token `[DLE]` of its control-code name.  Both versions render
the one-byte sequence 0x10 as `[DEL]`. -/
theorem dle_is_rendered_as_del :
    Debug.toReadableCtrlCode [0x10] = Debug.bytes "[DEL]" ∧
      toReadableCtrlCode ⟨⟨[0x10], 1, 1, 1, true⟩, 0⟩ = some (Debug.bytes "[DEL]") ∧
      (do let b ← from_string [0x10]; toReadableCtrlCode b) = some (Debug.bytes "[DEL]") ∧
      Debug.ascii_control_names[0x10]? = some "DLE" ∧
      Debug.name_token "DLE" = Debug.bytes "[DLE]" ∧
      Debug.bytes "[DEL]" ≠ Debug.bytes "[DLE]" ∧
      Debug.toReadableCtrlCode [0x7f] = Debug.bytes "[DEL]" := by
  decide

end Sml
